import Mathlib

/-!
Verification of the MIX virtual-machine runtime (modern_legacy).

This file gives a shallow embedding of the runtime found in
src/runtime/mem.rs, src/runtime/instr.rs, src/runtime/io.rs and
src/runtime/vm.rs, and proves properties of its specification against it.

Conventions of the embedding:
  * Machine bytes are modelled as Nat; the source type is u8, so every state
    the real machine can inhabit has all bytes below 256.  Claims whose
    arithmetic depends on the byte bound carry that bound as a hypothesis.
  * Rust integer overflow is modelled with release-profile semantics
    (two's-complement wrapping), written as explicit modular arithmetic.
  * Fallible Rust code returns Result; this is modelled by the HRes type
    below.  Out-of-bounds panics (array indexing, slice indexing) are
    modelled by the HRes.panic constructor (or Option.none for local
    sub-operations).
  * IEEE-754 binary32 operations (the x-ieee754 extension paths) are not
    interpreted; they are parameters of the semantics, collected in the
    F32Model structure, and the theorems below are quantified over every
    such model.
-/

namespace MixVM

/-- Byte k (counting from the least significant end) of the big-endian
byte decomposition of a natural number. -/
def byteOf (x k : Nat) : Nat := x / 256 ^ k % 256

/-- Two's-complement 16-bit wrap of an integer, as done by release-mode
i16 arithmetic in the source. -/
def i16wrap (x : Int) : Int := (x + 32768) % 65536 - 32768

/-- Interpretation of two big-endian bytes as a signed 16-bit value,
mirroring i16::from_be_bytes in impl TryFrom for Instruction. -/
def i16ofBytes (b1 b2 : Nat) : Int :=
  let u : Nat := (b1 * 256 + b2) % 65536
  if u < 32768 then (u : Int) else (u : Int) - 65536

/-- Error states of the machine, mirroring enum ErrorCode in vm.rs. -/
inductive ErrorCode where
  | Generic
  | IllegalInstruction
  | InvalidAddress
  | InvalidField
  | InvalidIndex
  | UnknownDevice
  | IOError
  | Halted
deriving DecidableEq, Repr

/-- Values of the comparison indicator, mirroring enum CompIndicator. -/
inductive CompIndicator where
  | Equal
  | Less
  | Greater
  | Unordered
deriving DecidableEq, Repr

/-- A full MIX word: one sign byte b0 (0 = positive, nonzero = negative)
followed by five magnitude bytes b1..b5, mirroring Word of 6 bytes. -/
structure FullWord where
  b0 : Nat
  b1 : Nat
  b2 : Nat
  b3 : Nat
  b4 : Nat
  b5 : Nat
deriving DecidableEq, Repr

/-- A half MIX word: sign byte plus two magnitude bytes, mirroring
Word of 3 bytes.  The jump register rJ (PosHalfWord in the source) is
also represented with this type; its always-positive discipline is the
subject of claim C9 rather than baked into the type. -/
structure HalfWord where
  b0 : Nat
  b1 : Nat
  b2 : Nat
deriving DecidableEq, Repr

namespace FullWord

/-- The all-zero positive word, mirroring Word::new. -/
def new : FullWord := ⟨0, 0, 0, 0, 0, 0⟩

/-- Byte access by dynamic index, mirroring the Index impl of Word.
All executed accesses are in range; the default branch is unreachable
on those paths (out-of-range dynamic accesses are modelled as panics
at their call sites before getByte is consulted). -/
def getByte (w : FullWord) : Nat → Nat
  | 0 => w.b0
  | 1 => w.b1
  | 2 => w.b2
  | 3 => w.b3
  | 4 => w.b4
  | 5 => w.b5
  | _ => 0

/-- Byte update by dynamic index, mirroring the IndexMut impl of Word. -/
def setByte (w : FullWord) : Nat → Nat → FullWord
  | 0, v => { w with b0 := v }
  | 1, v => { w with b1 := v }
  | 2, v => { w with b2 := v }
  | 3, v => { w with b3 := v }
  | 4, v => { w with b4 := v }
  | 5, v => { w with b5 := v }
  | _, _ => w

/-- Sign adjustment coefficient, mirroring Word::get_sign. -/
def get_sign (w : FullWord) : Int := if w.b0 = 0 then 1 else -1

/-- Magnitude of the five magnitude bytes read big-endian, as produced
by the byte-copy loop plus i64::from_be_bytes in Word::to_i64. -/
def mag (w : FullWord) : Nat :=
  (((w.b1 * 256 + w.b2) * 256 + w.b3) * 256 + w.b4) * 256 + w.b5

/-- Conversion of a full word to a signed integer, mirroring
Word::to_i64.  For a 6-byte word the overflow output is always false
(the condition N - 1 > 8 fails). -/
def to_i64 (w : FullWord) : Int × Bool := (w.get_sign * w.mag, false)

/-- Construction of a full word from a signed 64-bit integer, mirroring
Word::from_i64: the absolute value is laid out big-endian and the five
least significant bytes are kept; overflow reports whether any of the
three dropped bytes was nonzero.  value.abs() is modelled with wrapping
(release-profile) semantics. -/
def from_i64 (v : Int) : FullWord × Bool :=
  let a : Nat := v.natAbs % 2 ^ 64
  (⟨if v < 0 then 1 else 0,
    byteOf a 4, byteOf a 3, byteOf a 2, byteOf a 1, byteOf a 0⟩,
   decide (256 ^ 5 ≤ a))

/-- Sign flip, mirroring Word::flip_sign with P = false. -/
def flip_sign (w : FullWord) : FullWord :=
  { w with b0 := if w.b0 = 0 then 1 else 0 }

/-- Magnitude of the byte range s..=r of a word, read big-endian
(the copy loop of Word::to_i64_ranged). -/
def rangeMag (w : FullWord) (s r : Nat) : Nat :=
  (List.range' s (r + 1 - s)).foldl (fun acc i => acc * 256 + w.getByte i) 0

/-- Count of nonzero bytes in the byte range s..=r of a word. -/
def rangeNonzero (w : FullWord) (s r : Nat) : Nat :=
  ((List.range' s (r + 1 - s)).filter (fun i => w.getByte i ≠ 0)).length

/-- Conversion of the byte range l..=r of a word to a signed integer,
mirroring Word::to_i64_ranged.  Returns none where the Rust slice
operation data[new_start..=r] would panic (r out of the six bytes, or an
inverted range). -/
def to_i64_ranged (w : FullWord) (l r : Nat) : Option (Int × Bool) :=
  let s : Nat := if l = 0 then 1 else l
  if 6 ≤ r ∨ r + 1 < s then none
  else if r + 1 ≤ s then some (0, false)
  else
    let sign : Int := if l = 0 then w.get_sign else 1
    some (sign * w.rangeMag s r, decide (8 < w.rangeNonzero s r))

end FullWord

namespace HalfWord

/-- The all-zero positive half word. -/
def new : HalfWord := ⟨0, 0, 0⟩

/-- Magnitude of the two magnitude bytes read big-endian. -/
def mag (w : HalfWord) : Nat := w.b1 * 256 + w.b2

/-- Sign adjustment coefficient, mirroring Word::get_sign. -/
def get_sign (w : HalfWord) : Int := if w.b0 = 0 then 1 else -1

/-- Conversion of a half word to a signed integer, mirroring
Word::to_i64 at N = 3. -/
def to_i64 (w : HalfWord) : Int × Bool := (w.get_sign * w.mag, false)

/-- Construction of a half word from a signed 64-bit integer, mirroring
Word::from_i64 at N = 3, P = false: the two least significant bytes of
the absolute value are kept; overflow reports a dropped nonzero byte. -/
def from_i64 (v : Int) : HalfWord × Bool :=
  let a : Nat := v.natAbs % 2 ^ 64
  (⟨if v < 0 then 1 else 0, byteOf a 1, byteOf a 0⟩,
   decide (256 ^ 2 ≤ a))

/-- Sign flip, mirroring Word::flip_sign with P = false. -/
def flip_sign (w : HalfWord) : HalfWord :=
  { w with b0 := if w.b0 = 0 then 1 else 0 }

end HalfWord

/-- Field decoder: the packed field F denotes the inclusive byte range
F / 8 ..= F % 8, mirroring to_range_inclusive in instr.rs. -/
def fieldRange (f : Nat) : Nat × Nat := (f / 8, f % 8)

/-- Signless field decoder, mirroring to_range_inclusive_signless:
byte 0 is removed from the range and a flag records whether it was
included. -/
def fieldRangeSignless (f : Nat) : (Nat × Nat) × Bool :=
  let lr := fieldRange f
  let hasSign := lr.1 = 0
  ((if hasSign then lr.1 + 1 else lr.1, lr.2), hasSign)

end MixVM

namespace MixVM

/-- Operation codes, mirroring enum Opcode in instr.rs (values 0..=63). -/
inductive Opcode where
  | Nop | Add | Sub | Mul | Div | Special | Shift | Move
  | LdA | Ld1 | Ld2 | Ld3 | Ld4 | Ld5 | Ld6 | LdX
  | LdAN | Ld1N | Ld2N | Ld3N | Ld4N | Ld5N | Ld6N | LdXN
  | StA | St1 | St2 | St3 | St4 | St5 | St6 | StX | StJ | StZ
  | Jbus | Ioc | In | Out | Jred | Jmp
  | JA | J1 | J2 | J3 | J4 | J5 | J6 | JX
  | ModifyA | Modify1 | Modify2 | Modify3 | Modify4 | Modify5 | Modify6
  | ModifyX
  | CmpA | Cmp1 | Cmp2 | Cmp3 | Cmp4 | Cmp5 | Cmp6 | CmpX
deriving DecidableEq, Repr

/-- Conversion of an opcode byte to an Opcode, mirroring the derived
TryFromPrimitive: bytes 0..=63 are the listed discriminants, all other
byte values are rejected. -/
def Opcode.fromByte : Nat → Option Opcode
  | 0 => some .Nop | 1 => some .Add | 2 => some .Sub | 3 => some .Mul
  | 4 => some .Div | 5 => some .Special | 6 => some .Shift | 7 => some .Move
  | 8 => some .LdA | 9 => some .Ld1 | 10 => some .Ld2 | 11 => some .Ld3
  | 12 => some .Ld4 | 13 => some .Ld5 | 14 => some .Ld6 | 15 => some .LdX
  | 16 => some .LdAN | 17 => some .Ld1N | 18 => some .Ld2N | 19 => some .Ld3N
  | 20 => some .Ld4N | 21 => some .Ld5N | 22 => some .Ld6N | 23 => some .LdXN
  | 24 => some .StA | 25 => some .St1 | 26 => some .St2 | 27 => some .St3
  | 28 => some .St4 | 29 => some .St5 | 30 => some .St6 | 31 => some .StX
  | 32 => some .StJ | 33 => some .StZ
  | 34 => some .Jbus | 35 => some .Ioc | 36 => some .In | 37 => some .Out
  | 38 => some .Jred | 39 => some .Jmp
  | 40 => some .JA | 41 => some .J1 | 42 => some .J2 | 43 => some .J3
  | 44 => some .J4 | 45 => some .J5 | 46 => some .J6 | 47 => some .JX
  | 48 => some .ModifyA | 49 => some .Modify1 | 50 => some .Modify2
  | 51 => some .Modify3 | 52 => some .Modify4 | 53 => some .Modify5
  | 54 => some .Modify6 | 55 => some .ModifyX
  | 56 => some .CmpA | 57 => some .Cmp1 | 58 => some .Cmp2 | 59 => some .Cmp3
  | 60 => some .Cmp4 | 61 => some .Cmp5 | 62 => some .Cmp6 | 63 => some .CmpX
  | _ => none

/-- A decoded instruction, mirroring struct Instruction in instr.rs. -/
structure Instruction where
  addr : Int
  field : Nat
  index : Nat
  opcode : Opcode
deriving DecidableEq, Repr

/-- Decoding of a full word into an instruction, mirroring the TryFrom
impl in instr.rs: the address is the word sign times the signed
big-endian interpretation of bytes 1..2 (wrapping at -32768 * -1),
byte 3 is the index, byte 4 the field, and byte 5 must name an opcode. -/
def decode (w : FullWord) : Option Instruction :=
  match Opcode.fromByte w.b5 with
  | none => none
  | some op =>
    some { addr := i16wrap ((if w.b0 = 0 then 1 else -1) * i16ofBytes w.b1 w.b2),
           field := w.b4, index := w.b3, opcode := op }

/-- An IO device, mirroring trait IODevice in io.rs as a deterministic
state machine.  Option.none on a method models the Err return of the
corresponding trait method (the usize payload of a failed write is
discarded by the VM and is dropped here). -/
inductive IODev where
  | mk : Nat →
      (List FullWord → Option (List FullWord × IODev)) →
      (List FullWord → Option IODev) →
      (Int → Option IODev) →
      Option Bool →
      Option Bool → IODev

/-- Block size of a device, mirroring IODevice::get_block_size. -/
def IODev.blockSize : IODev → Nat
  | .mk n _ _ _ _ _ => n

/-- Read callback of a device, mirroring IODevice::read: it receives the
current contents of the memory block and produces the new contents
together with the follow-up device state. -/
def IODev.readF : IODev → List FullWord → Option (List FullWord × IODev)
  | .mk _ f _ _ _ _ => f

/-- Write callback of a device, mirroring IODevice::write. -/
def IODev.writeF : IODev → List FullWord → Option IODev
  | .mk _ _ f _ _ _ => f

/-- Control callback of a device, mirroring IODevice::control. -/
def IODev.controlF : IODev → Int → Option IODev
  | .mk _ _ _ f _ _ => f

/-- Busy poll of a device, mirroring IODevice::is_busy. -/
def IODev.busy : IODev → Option Bool
  | .mk _ _ _ _ b _ => b

/-- Ready poll of a device, mirroring IODevice::is_ready. -/
def IODev.ready : IODev → Option Bool
  | .mk _ _ _ _ _ r => r

/-- Abstract model of the IEEE-754 binary32 operations used by the
x-ieee754 extension paths of the VM.  All values are 32-bit patterns
packed as naturals; the semantics below is parameterised over an
arbitrary model, so nothing about floating point is assumed. -/
structure F32Model where
  fadd : Nat → Nat → Nat
  fsub : Nat → Nat → Nat
  fmul : Nat → Nat → Nat
  fdiv : Nat → Nat → Nat
  isFinite : Nat → Bool
  isNan : Nat → Bool
  isSignPositive : Nat → Bool
  totalCmp : Nat → Nat → Ordering
  cvtAbsU32 : Nat → Nat
  cvtOverI32 : Nat → Bool
  cvtAbsU16 : Nat → Nat
  cvtOverI16 : Nat → Bool
  cvtAbsU8 : Nat → Nat
  cvtOverI8 : Nat → Bool
  ofU32 : Nat → Nat
  ofU16 : Nat → Nat
  ofU8 : Nat → Nat

/-- A trivial instantiation of the float model, used only to build
concrete machine configurations in witnesses. -/
def trivF32 : F32Model :=
  ⟨fun _ _ => 0, fun _ _ => 0, fun _ _ => 0, fun _ _ => 0,
   fun _ => true, fun _ => false, fun _ => true, fun _ _ => Ordering.eq,
   fun _ => 0, fun _ => false, fun _ => 0, fun _ => false, fun _ => 0,
   fun _ => false, fun _ => 0, fun _ => 0, fun _ => 0⟩

/-- The state of a MIX machine, mirroring struct VM in vm.rs.  Memory is
a total function on addresses; only indices below Mem::SIZE = 4000 are
ever dereferenced (larger indices panic at their access sites).  The
index register file r_in has 7 slots; slot 0 is the constant zero used
by indexed addressing. -/
structure VM where
  r_a : FullWord
  r_x : FullWord
  r_in : Nat → HalfWord
  r_j : HalfWord
  comp : CompIndicator
  overflow : Bool
  halted : Bool
  pc : Nat
  io_devices : Nat → Option IODev
  mem : Nat → FullWord

/-- Number of words in the memory area, mirroring Mem::SIZE. -/
def memSize : Nat := 4000

/-- Number of device slots, mirroring the io_devices array length. -/
def numDevices : Nat := 21

/-- Result of executing one instruction handler (or one step): success,
an error code (carrying the machine state at the error site, since the
source mutates in place and does not roll back), or a Rust panic. -/
inductive HRes where
  | panic : HRes
  | err : ErrorCode → VM → HRes
  | ok : VM → HRes

/-- Construction of a machine in its initial configuration, mirroring
VM::new: everything zeroed, halted, no devices installed. -/
def VM.new : VM :=
  { r_a := FullWord.new, r_x := FullWord.new, r_in := fun _ => HalfWord.new,
    r_j := HalfWord.new, comp := .Equal, overflow := false, halted := true,
    pc := 0, io_devices := fun _ => none, mem := fun _ => FullWord.new }

/-- Reset, mirroring VM::reset: registers, pc and flags cleared; memory,
devices and the halted flag untouched. -/
def VM.reset (vm : VM) : VM :=
  { vm with r_a := FullWord.new, r_x := FullWord.new,
            r_in := fun _ => HalfWord.new, r_j := HalfWord.new,
            pc := 0, overflow := false, comp := .Equal }

/-- Restart, mirroring VM::restart. -/
def VM.restart (vm : VM) : VM := { vm with halted := false }

/-- Halt, mirroring VM::halt. -/
def VM.halt (vm : VM) : VM := { vm with halted := true }

end MixVM

namespace MixVM

/-- Read of a memory cell, mirroring Index for Mem: addresses at or
beyond Mem::SIZE panic. -/
def memRead (vm : VM) (a : Nat) : Option FullWord :=
  if a < memSize then some (vm.mem a) else none

/-- Indexed effective address, mirroring VM::helper_get_eff_addr: the
index part must be 0..=6, and the sum of index-register value and
address must fit in u16. -/
def helper_get_eff_addr (vm : VM) (addr : Int) (index : Nat) :
    Except ErrorCode Nat :=
  if index ≤ 6 then
    let reg_val := (vm.r_in index).to_i64.1
    let v := reg_val + addr
    if 0 ≤ v ∧ v ≤ 65535 then .ok v.toNat else .error .InvalidAddress
  else .error .InvalidIndex

/-- Unchecked indexed effective address, mirroring
VM::helper_get_eff_addr_unchecked: the index register array has 7
slots, so an index part above 6 is an out-of-bounds panic; the result
is the wrapping 16-bit sum and may be negative. -/
def helper_get_eff_addr_unchecked (vm : VM) (addr : Int) (index : Nat) :
    Option Int :=
  if index < 7 then some (i16wrap (i16wrap (vm.r_in index).to_i64.1 + addr))
  else none

/-- Jump execution, mirroring VM::helper_do_jump: optionally store the
big-endian bytes of the current (already incremented) pc into the two
magnitude bytes of rJ, then set the pc to the target. -/
def helper_do_jump (vm : VM) (location : Nat) (save_r_j : Bool) : VM :=
  let vm1 := if save_r_j then
    { vm with r_j := { vm.r_j with b1 := byteOf vm.pc 1, b2 := byteOf vm.pc 0 } }
  else vm
  { vm1 with pc := location }

/-- Device lookup, mirroring VM::helper_get_io_device: a slot number at
or beyond the table length is InvalidField, an empty slot is
UnknownDevice. -/
def helper_get_io_device (vm : VM) (dev_id : Nat) : Except ErrorCode IODev :=
  if dev_id < numDevices then
    match vm.io_devices dev_id with
    | none => .error .UnknownDevice
    | some d => .ok d
  else .error .InvalidField

/-- The reversed pairing of destination magnitude positions 5,4,3,2,1
with the reversed field range s..=r, as built by the copy loops
(1..=5).rev().zip(field.rev()) of the load and store handlers. -/
def copyPairs (s r : Nat) : List (Nat × Nat) :=
  (List.range' 1 5).reverse.zip (List.range' s (r + 1 - s)).reverse

/-- Field copy into a register, mirroring the load-handler loop that
reads mem_cell bytes at the field range and writes them right-aligned
into the register.  Returns none where the source byte access would
panic (a nonempty field range reaching past byte 5). -/
def copyFieldIn (dst src : FullWord) (s r : Nat) : Option FullWord :=
  if s ≤ r ∧ 6 ≤ r then none
  else some ((copyPairs s r).foldl
    (fun d p => d.setByte p.1 (src.getByte p.2)) dst)

/-- Field copy out of a register, mirroring the store-handler loop that
writes the right-aligned register bytes into the memory cell at the
field range.  Returns none where the destination byte access would
panic. -/
def copyFieldOut (cell reg : FullWord) (s r : Nat) : Option FullWord :=
  if s ≤ r ∧ 6 ≤ r then none
  else some ((copyPairs s r).foldl
    (fun c p => c.setByte p.2 (reg.getByte p.1)) cell)

/-- Handler for NOP, mirroring VM::handle_instr_nop. -/
def handle_instr_nop (vm : VM) (_ : Instruction) : HRes := .ok vm

/-- Handler for LDA and LDX, mirroring VM::handle_instr_load_6b. -/
def handle_instr_load_6b (vm : VM) (instr : Instruction) : HRes :=
  let fr := fieldRangeSignless instr.field
  match helper_get_eff_addr vm instr.addr instr.index with
  | .error e => .err e vm
  | .ok addr =>
    match memRead vm addr with
    | none => .panic
    | some mem_cell =>
      match copyFieldIn FullWord.new mem_cell fr.1.1 fr.1.2 with
      | none => .panic
      | some reg1 =>
        let reg2 := if fr.2 then { reg1 with b0 := mem_cell.b0 } else reg1
        match instr.opcode with
        | .LdA => .ok { vm with r_a := reg2 }
        | .LdX => .ok { vm with r_x := reg2 }
        | _ => .panic

/-- Handler for LDAN and LDXN, mirroring VM::handle_instr_load_neg_6b:
as the positive load, but the copied sign byte is negated. -/
def handle_instr_load_neg_6b (vm : VM) (instr : Instruction) : HRes :=
  let fr := fieldRangeSignless instr.field
  match helper_get_eff_addr vm instr.addr instr.index with
  | .error e => .err e vm
  | .ok addr =>
    match memRead vm addr with
    | none => .panic
    | some mem_cell =>
      match copyFieldIn FullWord.new mem_cell fr.1.1 fr.1.2 with
      | none => .panic
      | some reg1 =>
        let reg2 := if fr.2 then ({ reg1 with b0 := mem_cell.b0 }).flip_sign
                    else reg1
        match instr.opcode with
        | .LdAN => .ok { vm with r_a := reg2 }
        | .LdXN => .ok { vm with r_x := reg2 }
        | _ => .panic

/-- Index-register selector of the LD1-6 family. -/
def ldIndex : Opcode → Option Nat
  | .Ld1 => some 1 | .Ld2 => some 2 | .Ld3 => some 3
  | .Ld4 => some 4 | .Ld5 => some 5 | .Ld6 => some 6 | _ => none

/-- Index-register selector of the LD1-6N family. -/
def ldnIndex : Opcode → Option Nat
  | .Ld1N => some 1 | .Ld2N => some 2 | .Ld3N => some 3
  | .Ld4N => some 4 | .Ld5N => some 5 | .Ld6N => some 6 | _ => none

/-- Index-register selector of the ST1-6 family. -/
def stIndex : Opcode → Option Nat
  | .St1 => some 1 | .St2 => some 2 | .St3 => some 3
  | .St4 => some 4 | .St5 => some 5 | .St6 => some 6 | _ => none

/-- Index-register selector of the INC/DEC/ENT/ENN1-6 family. -/
def modifyIndex : Opcode → Option Nat
  | .Modify1 => some 1 | .Modify2 => some 2 | .Modify3 => some 3
  | .Modify4 => some 4 | .Modify5 => some 5 | .Modify6 => some 6 | _ => none

/-- Index-register selector of the CMP1-6 family. -/
def cmpIndex : Opcode → Option Nat
  | .Cmp1 => some 1 | .Cmp2 => some 2 | .Cmp3 => some 3
  | .Cmp4 => some 4 | .Cmp5 => some 5 | .Cmp6 => some 6 | _ => none

/-- Index-register selector of the J1-6 family. -/
def jIndex : Opcode → Option Nat
  | .J1 => some 1 | .J2 => some 2 | .J3 => some 3
  | .J4 => some 4 | .J5 => some 5 | .J6 => some 6 | _ => none

/-- Handler for LD1-6, mirroring VM::handle_instr_load_3b: the copy is
performed into a 6-byte temporary, of which only the sign byte and the
two rightmost bytes reach the 3-byte register. -/
def handle_instr_load_3b (vm : VM) (instr : Instruction) : HRes :=
  let fr := fieldRangeSignless instr.field
  match helper_get_eff_addr vm instr.addr instr.index with
  | .error e => .err e vm
  | .ok addr =>
    match memRead vm addr with
    | none => .panic
    | some mem_cell =>
      match ldIndex instr.opcode with
      | none => .panic
      | some k =>
        match copyFieldIn FullWord.new mem_cell fr.1.1 fr.1.2 with
        | none => .panic
        | some temp1 =>
          let temp2 := if fr.2 then { temp1 with b0 := mem_cell.b0 } else temp1
          .ok { vm with
            r_in := Function.update vm.r_in k ⟨temp2.b0, temp2.b4, temp2.b5⟩ }

/-- Handler for LD1-6N, mirroring VM::handle_instr_load_neg_3b. -/
def handle_instr_load_neg_3b (vm : VM) (instr : Instruction) : HRes :=
  let fr := fieldRangeSignless instr.field
  match helper_get_eff_addr vm instr.addr instr.index with
  | .error e => .err e vm
  | .ok addr =>
    match memRead vm addr with
    | none => .panic
    | some mem_cell =>
      match ldnIndex instr.opcode with
      | none => .panic
      | some k =>
        match copyFieldIn FullWord.new mem_cell fr.1.1 fr.1.2 with
        | none => .panic
        | some temp1 =>
          let temp2 := if fr.2 then ({ temp1 with b0 := mem_cell.b0 }).flip_sign
                       else temp1
          .ok { vm with
            r_in := Function.update vm.r_in k ⟨temp2.b0, temp2.b4, temp2.b5⟩ }

/-- The jump-condition table of JMP and variants: the field selects
one of the twelve conditions of VM::handle_instr_jmp; fields 12..255
are invalid. -/
def jmpCond (vm : VM) (f : Nat) : Option Bool :=
  match f with
  | 0 => some true
  | 1 => some true
  | 2 => some vm.overflow
  | 3 => some (!vm.overflow)
  | 4 => some (decide (vm.comp = .Less))
  | 5 => some (decide (vm.comp = .Equal))
  | 6 => some (decide (vm.comp = .Greater))
  | 7 => some (decide (vm.comp ≠ .Less))
  | 8 => some (decide (vm.comp ≠ .Equal))
  | 9 => some (decide (vm.comp ≠ .Greater))
  | 10 => some (decide (vm.comp ≠ .Unordered))
  | 11 => some (decide (vm.comp = .Unordered))
  | _ => none

/-- Handler for JMP and variants, mirroring VM::handle_instr_jmp. -/
def handle_instr_jmp (vm : VM) (instr : Instruction) : HRes :=
  match helper_get_eff_addr vm instr.addr instr.index with
  | .error e => .err e vm
  | .ok target_addr =>
    match jmpCond vm instr.field with
    | none => .err .InvalidField vm
    | some should_jump =>
      let vm1 := if instr.field = 2 ∨ instr.field = 3 then
        { vm with overflow := false } else vm
      .ok (if should_jump then
        helper_do_jump vm1 target_addr (instr.field ≠ 1) else vm1)

end MixVM

namespace MixVM

/-- Packing of four bytes into a big-endian 32-bit pattern, as done by
f32::from_be_bytes / u32::from_be_bytes on word bytes 2..=5. -/
def pack4 (a b c d : Nat) : Nat := ((a * 256 + b) * 256 + c) * 256 + d

/-- Packing of two bytes into a big-endian 16-bit pattern. -/
def pack2 (a b : Nat) : Nat := a * 256 + b

/-- The NUM accumulator: fold acc * 10 + byte % 10 over the ten
magnitude bytes of rA then rX, left to right, mirroring the NUM branch
of VM::handle_instr_special. -/
def numAcc (ra rx : FullWord) : Int :=
  ([ra.b1, ra.b2, ra.b3, ra.b4, ra.b5,
    rx.b1, rx.b2, rx.b3, rx.b4, rx.b5]).foldl
    (fun acc b => acc * 10 + (b % 10 : Nat)) (0 : Int)

/-- Handler for NUM, CHAR, HLT and the extension sub-opcodes, mirroring
VM::handle_instr_special.  Bitwise not of a u8 byte is written as
255 - b. -/
def handle_instr_special (fm : F32Model) (vm : VM) (instr : Instruction) :
    HRes :=
  if instr.field = 0 then
    let result_word := (FullWord.from_i64 (numAcc vm.r_a vm.r_x)).1
    .ok { vm with r_a := { vm.r_a with
      b1 := result_word.b1, b2 := result_word.b2, b3 := result_word.b3,
      b4 := result_word.b4, b5 := result_word.b5 } }
  else if instr.field = 1 then
    let n := vm.r_a.to_i64.1.natAbs
    .ok { vm with
      r_a := { vm.r_a with
        b1 := n / 10 ^ 9 % 10 + 30, b2 := n / 10 ^ 8 % 10 + 30,
        b3 := n / 10 ^ 7 % 10 + 30, b4 := n / 10 ^ 6 % 10 + 30,
        b5 := n / 10 ^ 5 % 10 + 30 },
      r_x := { vm.r_x with
        b1 := n / 10 ^ 4 % 10 + 30, b2 := n / 10 ^ 3 % 10 + 30,
        b3 := n / 10 ^ 2 % 10 + 30, b4 := n / 10 % 10 + 30,
        b5 := n % 10 + 30 } }
  else if instr.field = 2 then
    .ok { vm with halted := true }
  else if 3 ≤ instr.field ∧ instr.field ≤ 8 then
    if instr.field = 3 then
      let orig := pack4 vm.r_a.b2 vm.r_a.b3 vm.r_a.b4 vm.r_a.b5
      let res := fm.cvtAbsU32 orig
      .ok { vm with
        r_a := ⟨if fm.isSignPositive orig then 0 else 1, 0,
                byteOf res 3, byteOf res 2, byteOf res 1, byteOf res 0⟩,
        overflow := if fm.cvtOverI32 orig then true else vm.overflow }
    else if instr.field = 4 then
      let orig := pack4 vm.r_a.b2 vm.r_a.b3 vm.r_a.b4 vm.r_a.b5
      let res := fm.cvtAbsU16 orig
      .ok { vm with
        r_a := ⟨if fm.isSignPositive orig then 0 else 1, 0, 0, 0,
                byteOf res 1, byteOf res 0⟩,
        overflow := if fm.cvtOverI16 orig then true else vm.overflow }
    else if instr.field = 5 then
      let orig := pack4 vm.r_a.b2 vm.r_a.b3 vm.r_a.b4 vm.r_a.b5
      let res := fm.cvtAbsU8 orig
      .ok { vm with
        r_a := ⟨if fm.isSignPositive orig then 0 else 1, 0, 0, 0, 0,
                byteOf res 0⟩,
        overflow := if fm.cvtOverI8 orig then true else vm.overflow }
    else
      let new_value :=
        match instr.field with
        | 6 => fm.ofU32 (pack4 vm.r_a.b2 vm.r_a.b3 vm.r_a.b4 vm.r_a.b5)
        | 7 => fm.ofU16 (pack2 vm.r_a.b4 vm.r_a.b5)
        | _ => fm.ofU8 vm.r_a.b5
      .ok { vm with r_a := ⟨0, 0, byteOf new_value 3, byteOf new_value 2,
                            byteOf new_value 1, byteOf new_value 0⟩ }
  else if 9 ≤ instr.field ∧ instr.field ≤ 12 then
    if instr.field = 9 then
      let a := vm.r_a.flip_sign
      .ok { vm with r_a := ⟨a.b0, 255 - a.b1, 255 - a.b2, 255 - a.b3,
                            255 - a.b4, 255 - a.b5⟩ }
    else
      match helper_get_eff_addr vm instr.addr instr.index with
      | .error e => .err e vm
      | .ok addr =>
        match memRead vm addr with
        | none => .panic
        | some mem_cell =>
          let f : Nat → Nat → Nat :=
            match instr.field with
            | 10 => Nat.land
            | 11 => Nat.lor
            | _ => Nat.xor
          .ok { vm with r_a := ⟨f vm.r_a.b0 mem_cell.b0,
            f vm.r_a.b1 mem_cell.b1, f vm.r_a.b2 mem_cell.b2,
            f vm.r_a.b3 mem_cell.b3, f vm.r_a.b4 mem_cell.b4,
            f vm.r_a.b5 mem_cell.b5⟩ }
  else .err .InvalidField vm

/-- Handler for STZ, mirroring VM::handle_instr_store_zero: the raw
field range is walked and zeroed, with byte 0 set to the positive sign;
a range reaching past byte 5 panics at the byte access. -/
def handle_instr_store_zero (vm : VM) (instr : Instruction) : HRes :=
  match helper_get_eff_addr vm instr.addr instr.index with
  | .error e => .err e vm
  | .ok addr =>
    let lr := fieldRange instr.field
    match memRead vm addr with
    | none => .panic
    | some mem_cell =>
      if lr.1 ≤ lr.2 ∧ 6 ≤ lr.2 then .panic
      else
        let cell1 := (List.range' lr.1 (lr.2 + 1 - lr.1)).foldl
          (fun c i => if i = 0 then { c with b0 := 0 } else c.setByte i 0)
          mem_cell
        .ok { vm with mem := Function.update vm.mem addr cell1 }

/-- One-word-at-a-time copy loop of MOVE, mirroring the loop in
VM::handle_instr_move: word i is read from from_addr + i and written to
to_addr + i with wrapping u16 sums; an address at or beyond Mem::SIZE
panics. -/
def moveLoop (fromA toA : Nat) (n : Nat) (i : Nat) (mem : Nat → FullWord) :
    Option (Nat → FullWord) :=
  if h : i < n then
    let src := (fromA + i) % 65536
    let dst := (toA + i) % 65536
    if src < memSize ∧ dst < memSize then
      moveLoop fromA toA n (i + 1) (Function.update mem dst (mem src))
    else none
  else some mem
termination_by n - i
decreasing_by omega

/-- Handler for MOVE, mirroring VM::handle_instr_move. -/
def handle_instr_move (vm : VM) (instr : Instruction) : HRes :=
  match helper_get_eff_addr vm instr.addr instr.index with
  | .error e => .err e vm
  | .ok from_addr =>
    let to_addr := pack2 (vm.r_in 1).b1 (vm.r_in 1).b2
    let num_words := instr.field
    match moveLoop from_addr to_addr num_words 0 vm.mem with
    | none => .panic
    | some mem1 =>
      let new_r_i1_val := (vm.r_in 1).to_i64.1 + num_words
      let p := HalfWord.from_i64 new_r_i1_val
      let vm1 := { vm with
        mem := mem1, r_in := Function.update vm.r_in 1 p.1 }
      .ok (if p.2 then { vm1 with overflow := true } else vm1)

/-- Handler for STA and STX, mirroring VM::handle_instr_store_6b. -/
def handle_instr_store_6b (vm : VM) (instr : Instruction) : HRes :=
  let fr := fieldRangeSignless instr.field
  match helper_get_eff_addr vm instr.addr instr.index with
  | .error e => .err e vm
  | .ok addr =>
    match memRead vm addr with
    | none => .panic
    | some mem_cell =>
      match (match instr.opcode with
             | .StA => some vm.r_a
             | .StX => some vm.r_x
             | _ => none) with
      | none => .panic
      | some reg =>
        match copyFieldOut mem_cell reg fr.1.1 fr.1.2 with
        | none => .panic
        | some cell1 =>
          let cell2 := if fr.2 then { cell1 with b0 := reg.b0 } else cell1
          .ok { vm with mem := Function.update vm.mem addr cell2 }

/-- Handler for ST1-6, mirroring VM::handle_instr_store_3b: the 3-byte
register is zero-padded to the 6-byte layout sign,0,0,0,b1,b2 before
the field copy. -/
def handle_instr_store_3b (vm : VM) (instr : Instruction) : HRes :=
  let fr := fieldRangeSignless instr.field
  match helper_get_eff_addr vm instr.addr instr.index with
  | .error e => .err e vm
  | .ok addr =>
    match memRead vm addr with
    | none => .panic
    | some mem_cell =>
      match stIndex instr.opcode with
      | none => .panic
      | some k =>
        let reg := vm.r_in k
        let padded_reg : FullWord := ⟨reg.b0, 0, 0, 0, reg.b1, reg.b2⟩
        match copyFieldOut mem_cell padded_reg fr.1.1 fr.1.2 with
        | none => .panic
        | some cell1 =>
          let cell2 := if fr.2 then { cell1 with b0 := padded_reg.b0 }
                       else cell1
          .ok { vm with mem := Function.update vm.mem addr cell2 }

/-- Handler for STJ, mirroring VM::handle_instr_store_j. -/
def handle_instr_store_j (vm : VM) (instr : Instruction) : HRes :=
  let fr := fieldRangeSignless instr.field
  match helper_get_eff_addr vm instr.addr instr.index with
  | .error e => .err e vm
  | .ok addr =>
    match memRead vm addr with
    | none => .panic
    | some mem_cell =>
      let reg := vm.r_j
      let padded_reg : FullWord := ⟨reg.b0, 0, 0, 0, reg.b1, reg.b2⟩
      match copyFieldOut mem_cell padded_reg fr.1.1 fr.1.2 with
      | none => .panic
      | some cell1 =>
        let cell2 := if fr.2 then { cell1 with b0 := padded_reg.b0 }
                     else cell1
        .ok { vm with mem := Function.update vm.mem addr cell2 }

end MixVM

namespace MixVM

/-- Register-modify step shared by INCA/DECA/ENTA/ENNA on a full word,
mirroring the branch structure of VM::handle_instr_modify_6b.  Returns
the new register and overflow flag, or none for an invalid field. -/
def modifyFull (reg : FullWord) (field : Nat) (addr : Nat) (ov : Bool) :
    Option (FullWord × Bool) :=
  if field = 0 ∨ field = 1 then
    let offset : Int := if field = 0 then (addr : Int) else -(addr : Int)
    let p := FullWord.from_i64 (reg.to_i64.1 + offset)
    some (p.1, if p.2 then true else ov)
  else if field = 2 ∨ field = 3 then
    let w := (FullWord.from_i64 (addr : Int)).1
    some (if field = 3 then w.flip_sign else w, ov)
  else none

/-- Register-modify step shared by INC/DEC/ENT/ENN1-6 on a half word,
mirroring the branch structure of VM::handle_instr_modify_3b.  The
effective address is the unchecked signed value. -/
def modifyHalf (reg : HalfWord) (field : Nat) (addr : Int) (ov : Bool) :
    Option (HalfWord × Bool) :=
  if field = 0 ∨ field = 1 then
    let offset : Int := if field = 0 then addr else -addr
    let p := HalfWord.from_i64 (reg.to_i64.1 + offset)
    some (p.1, if p.2 then true else ov)
  else if field = 2 ∨ field = 3 then
    let w := (HalfWord.from_i64 addr).1
    some (if field = 3 then w.flip_sign else w, ov)
  else none

/-- Handler for INCA/DECA/ENTA/ENNA and the rX variants, mirroring
VM::handle_instr_modify_6b.  Note that this handler computes its
effective address through the checked helper. -/
def handle_instr_modify_6b (vm : VM) (instr : Instruction) : HRes :=
  match helper_get_eff_addr vm instr.addr instr.index with
  | .error e => .err e vm
  | .ok addr =>
    match instr.opcode with
    | .ModifyA =>
      match modifyFull vm.r_a instr.field addr vm.overflow with
      | none => .err .InvalidField vm
      | some p => .ok { vm with r_a := p.1, overflow := p.2 }
    | .ModifyX =>
      match modifyFull vm.r_x instr.field addr vm.overflow with
      | none => .err .InvalidField vm
      | some p => .ok { vm with r_x := p.1, overflow := p.2 }
    | _ => .panic

/-- Handler for INC/DEC/ENT/ENN1-6, mirroring
VM::handle_instr_modify_3b.  The effective address comes from the
unchecked helper, which panics for an index part above 6. -/
def handle_instr_modify_3b (vm : VM) (instr : Instruction) : HRes :=
  match helper_get_eff_addr_unchecked vm instr.addr instr.index with
  | none => .panic
  | some addr =>
    match modifyIndex instr.opcode with
    | none => .panic
    | some k =>
      match modifyHalf (vm.r_in k) instr.field addr vm.overflow with
      | none => .err .InvalidField vm
      | some p => .ok { vm with
          r_in := Function.update vm.r_in k p.1, overflow := p.2 }

/-- Handler for ADD and SUB (and F32ADD/F32SUB at field 7), mirroring
VM::handle_instr_add_sub. -/
def handle_instr_add_sub (fm : F32Model) (vm : VM) (instr : Instruction) :
    HRes :=
  match helper_get_eff_addr vm instr.addr instr.index with
  | .error e => .err e vm
  | .ok addr =>
    match memRead vm addr with
    | none => .panic
    | some target_mem =>
      if instr.field = 7 then
        let tv := pack4 target_mem.b2 target_mem.b3 target_mem.b4
                        target_mem.b5
        let av := pack4 vm.r_a.b2 vm.r_a.b3 vm.r_a.b4 vm.r_a.b5
        match (match instr.opcode with
               | .Add => some (fm.fadd av tv)
               | .Sub => some (fm.fsub av tv)
               | _ => none) with
        | none => .panic
        | some nv =>
          .ok { vm with
            r_a := ⟨if fm.isSignPositive nv then 0 else 1, 0,
                    byteOf nv 3, byteOf nv 2, byteOf nv 1, byteOf nv 0⟩,
            overflow := if !fm.isFinite nv then true else vm.overflow }
      else
        let lr := fieldRange instr.field
        match target_mem.to_i64_ranged lr.1 lr.2 with
        | none => .panic
        | some tv =>
          match (match instr.opcode with
                 | .Add => some (vm.r_a.to_i64.1 + tv.1)
                 | .Sub => some (vm.r_a.to_i64.1 - tv.1)
                 | _ => none) with
          | none => .panic
          | some new_value =>
            let p := FullWord.from_i64 new_value
            .ok { vm with
              r_a := p.1, overflow := if p.2 then true else vm.overflow }

/-- Handler for MUL (and F32MUL at field 7), mirroring
VM::handle_instr_mul: the 10-byte product is spread over the magnitude
bytes of rA and rX with a shared sign; overflow reports a nonzero byte
above the ten kept ones. -/
def handle_instr_mul (fm : F32Model) (vm : VM) (instr : Instruction) :
    HRes :=
  match helper_get_eff_addr vm instr.addr instr.index with
  | .error e => .err e vm
  | .ok addr =>
    match memRead vm addr with
    | none => .panic
    | some target_mem =>
      if instr.field = 7 then
        let tv := pack4 target_mem.b2 target_mem.b3 target_mem.b4
                        target_mem.b5
        let av := pack4 vm.r_a.b2 vm.r_a.b3 vm.r_a.b4 vm.r_a.b5
        let nv := fm.fmul av tv
        .ok { vm with
          r_a := ⟨if fm.isSignPositive nv then 0 else 1, 0,
                  byteOf nv 3, byteOf nv 2, byteOf nv 1, byteOf nv 0⟩,
          overflow := if !fm.isFinite nv then true else vm.overflow }
      else
        let lr := fieldRange instr.field
        match target_mem.to_i64_ranged lr.1 lr.2 with
        | none => .panic
        | some tv =>
          let new_val : Int := vm.r_a.to_i64.1 * tv.1
          let a := new_val.natAbs
          let new_sign : Nat := if new_val < 0 then 1 else 0
          let vm1 := { vm with
            r_a := ⟨new_sign, byteOf a 9, byteOf a 8, byteOf a 7,
                    byteOf a 6, byteOf a 5⟩,
            r_x := ⟨new_sign, byteOf a 4, byteOf a 3, byteOf a 2,
                    byteOf a 1, byteOf a 0⟩ }
          .ok (if 256 ^ 10 ≤ a then { vm1 with overflow := true } else vm1)

/-- The checked i128 division of the source (i128::checked_div):
division by zero and the overflowing MIN / -1 case give none; otherwise
the quotient truncates toward zero. -/
def checked_div_i128 (a b : Int) : Option Int :=
  if b = 0 ∨ (a = -(2 ^ 127) ∧ b = -1) then none else some (a.tdiv b)

/-- The checked i128 remainder of the source (i128::checked_rem),
taking the sign of the dividend. -/
def checked_rem_i128 (a b : Int) : Option Int :=
  if b = 0 ∨ (a = -(2 ^ 127) ∧ b = -1) then none else some (a.tmod b)

/-- The 80-bit signed dividend of DIV: the ten magnitude bytes of rA
and rX read big-endian, under the sign of rA. -/
def divDividend (ra rx : FullWord) : Int :=
  ((((((((((ra.b1 : Int) * 256 + ra.b2) * 256 + ra.b3) * 256 + ra.b4)
    * 256 + ra.b5) * 256 + rx.b1) * 256 + rx.b2) * 256 + rx.b3)
    * 256 + rx.b4) * 256 + rx.b5) * ra.get_sign

/-- Handler for DIV (and F32DIV at field 7), mirroring
VM::handle_instr_div.  The quotient or remainder falls back to zero
with the overflow toggle set on a checked-division failure or a failed
narrowing to i64, exactly as the unwrap_or_else / unwrap_or chain of
the source. -/
def handle_instr_div (fm : F32Model) (vm : VM) (instr : Instruction) :
    HRes :=
  match helper_get_eff_addr vm instr.addr instr.index with
  | .error e => .err e vm
  | .ok addr =>
    match memRead vm addr with
    | none => .panic
    | some target_mem =>
      if instr.field = 7 then
        let tv := pack4 target_mem.b2 target_mem.b3 target_mem.b4
                        target_mem.b5
        let av := pack4 vm.r_a.b2 vm.r_a.b3 vm.r_a.b4 vm.r_a.b5
        let nv := fm.fdiv av tv
        .ok { vm with
          r_a := ⟨if fm.isSignPositive nv then 0 else 1, 0,
                  byteOf nv 3, byteOf nv 2, byteOf nv 1, byteOf nv 0⟩,
          overflow := if !fm.isFinite nv then true else vm.overflow }
      else
        let lr := fieldRange instr.field
        match target_mem.to_i64_ranged lr.1 lr.2 with
        | none => .panic
        | some tv =>
          let target_value : Int := tv.1
          let orig_value : Int := divDividend vm.r_a vm.r_x
          let pq : Int × Bool :=
            match checked_div_i128 orig_value target_value with
            | none => (0, true)
            | some q => (q, false)
          let pq2 : Nat × Bool :=
            if pq.1.natAbs ≤ 2 ^ 63 - 1 then (pq.1.natAbs, pq.2)
            else (0, true)
          let pr : Int × Bool :=
            match checked_rem_i128 orig_value target_value with
            | none => (0, true)
            | some r => (r, false)
          let pr2 : Nat × Bool :=
            if pr.1.natAbs ≤ 2 ^ 63 - 1 then (pr.1.natAbs, pr.2)
            else (0, true)
          let new_a := (FullWord.from_i64 (pq2.1 : Int)).1
          let new_x := (FullWord.from_i64 (pr2.1 : Int)).1
          let ovA := (FullWord.from_i64 (pq2.1 : Int)).2
          let ovX := (FullWord.from_i64 (pr2.1 : Int)).2
          .ok { vm with
            r_a := ⟨if orig_value.sign = target_value.sign then 0 else 1,
                    new_a.b1, new_a.b2, new_a.b3, new_a.b4, new_a.b5⟩,
            r_x := ⟨vm.r_a.b0, new_x.b1, new_x.b2, new_x.b3, new_x.b4,
                    new_x.b5⟩,
            overflow := if ovA ∨ ovX then true
              else if pq2.2 ∨ pr2.2 then true else vm.overflow }

end MixVM

namespace MixVM

/-- Handler for CMPA and CMPX (and the field-7 float compares),
mirroring VM::handle_instr_cmp_6b. -/
def handle_instr_cmp_6b (fm : F32Model) (vm : VM) (instr : Instruction) :
    HRes :=
  match helper_get_eff_addr vm instr.addr instr.index with
  | .error e => .err e vm
  | .ok addr =>
    match memRead vm addr with
    | none => .panic
    | some target_mem =>
      match (match instr.opcode with
             | .CmpA => some vm.r_a
             | .CmpX => some vm.r_x
             | _ => none) with
      | none => .panic
      | some reg =>
        if instr.field = 7 then
          let tv := pack4 target_mem.b2 target_mem.b3 target_mem.b4
                          target_mem.b5
          let rv := pack4 reg.b2 reg.b3 reg.b4 reg.b5
          let c := if fm.isNan rv || fm.isNan tv then CompIndicator.Unordered
            else match fm.totalCmp rv tv with
            | .lt => CompIndicator.Less
            | .eq => CompIndicator.Equal
            | .gt => CompIndicator.Greater
          .ok { vm with comp := c }
        else
          let lr := fieldRange instr.field
          match target_mem.to_i64_ranged lr.1 lr.2 with
          | none => .panic
          | some tv =>
            match reg.to_i64_ranged lr.1 lr.2 with
            | none => .panic
            | some rv =>
              let c := if rv.1 = tv.1 then CompIndicator.Equal
                else if rv.1 < tv.1 then CompIndicator.Less
                else CompIndicator.Greater
              .ok { vm with comp := c }

/-- Handler for CMP1-6, mirroring VM::handle_instr_cmp_3b: the 3-byte
register is padded to the 6-byte layout sign,0,0,0,b1,b2 before the
field slice; plus and minus zero compare equal. -/
def handle_instr_cmp_3b (vm : VM) (instr : Instruction) : HRes :=
  match helper_get_eff_addr vm instr.addr instr.index with
  | .error e => .err e vm
  | .ok addr =>
    match memRead vm addr with
    | none => .panic
    | some target_mem =>
      let lr := fieldRange instr.field
      match target_mem.to_i64_ranged lr.1 lr.2 with
      | none => .panic
      | some tv =>
        match cmpIndex instr.opcode with
        | none => .panic
        | some k =>
          let reg := vm.r_in k
          let padded_reg : FullWord := ⟨reg.b0, 0, 0, 0, reg.b1, reg.b2⟩
          match padded_reg.to_i64_ranged lr.1 lr.2 with
          | none => .panic
          | some rv =>
            let c := if rv.1 = tv.1 ∨ (rv.1.natAbs = 0 ∧ tv.1.natAbs = 0)
              then CompIndicator.Equal
              else if tv.1 < rv.1 then CompIndicator.Greater
              else CompIndicator.Less
            .ok { vm with comp := c }

/-- Handler for JA and JX, mirroring VM::handle_instr_jmp_reg_6b. -/
def handle_instr_jmp_reg_6b (vm : VM) (instr : Instruction) : HRes :=
  match helper_get_eff_addr vm instr.addr instr.index with
  | .error e => .err e vm
  | .ok target_addr =>
    match (match instr.opcode with
           | .JA => some vm.r_a
           | .JX => some vm.r_x
           | _ => none) with
    | none => .panic
    | some reg =>
      let reg_value := reg.to_i64.1
      let s := reg_value.sign
      let is_odd := decide (reg_value % 2 = 1)
      let sj : Option Bool :=
        match instr.field with
        | 0 => some (decide (s = -1))
        | 1 => some (decide (s = 0))
        | 2 => some (decide (s = 1))
        | 3 => some (decide (s ≠ -1))
        | 4 => some (decide (s ≠ 0))
        | 5 => some (decide (s ≠ 1))
        | 6 => some (!is_odd)
        | 7 => some is_odd
        | _ => none
      match sj with
      | none => .err .InvalidField vm
      | some should_jump =>
        .ok (if should_jump then helper_do_jump vm target_addr true else vm)

/-- Handler for J1-6, mirroring VM::handle_instr_jmp_reg_3b. -/
def handle_instr_jmp_reg_3b (vm : VM) (instr : Instruction) : HRes :=
  match helper_get_eff_addr vm instr.addr instr.index with
  | .error e => .err e vm
  | .ok target_addr =>
    match jIndex instr.opcode with
    | none => .panic
    | some k =>
      let s := (vm.r_in k).to_i64.1.sign
      let sj : Option Bool :=
        match instr.field with
        | 0 => some (decide (s = -1))
        | 1 => some (decide (s = 0))
        | 2 => some (decide (s = 1))
        | 3 => some (decide (s ≠ -1))
        | 4 => some (decide (s ≠ 0))
        | 5 => some (decide (s ≠ 1))
        | _ => none
      match sj with
      | none => .err .InvalidField vm
      | some should_jump =>
        .ok (if should_jump then helper_do_jump vm target_addr true else vm)

/-- Handler for SLA/SRA/SLAX/SRAX/SLC/SRC/SLB/SRB, mirroring
VM::handle_instr_shift.  Shift amounts are masked to the bit width
(release-profile shift semantics); the u64 view of rA used by SLA/SRA
is the two's-complement pattern of its to_i64 value. -/
def handle_instr_shift (vm : VM) (instr : Instruction) : HRes :=
  match helper_get_eff_addr vm instr.addr instr.index with
  | .error e => .err e vm
  | .ok count =>
    if instr.field = 0 ∨ instr.field = 1 then
      let orig_value : Nat := (vm.r_a.to_i64.1 % 2 ^ 64).toNat
      let shifted_value : Nat :=
        if instr.field = 0 then orig_value * 2 ^ (count * 8 % 64) % 2 ^ 64
        else orig_value / 2 ^ (count * 8 % 64)
      .ok { vm with r_a := { vm.r_a with
        b1 := byteOf shifted_value 4, b2 := byteOf shifted_value 3,
        b3 := byteOf shifted_value 2, b4 := byteOf shifted_value 1,
        b5 := byteOf shifted_value 0 } }
    else if (instr.field = 2 ∨ instr.field = 3)
        ∨ (instr.field = 6 ∨ instr.field = 7) then
      let orig_value : Nat :=
        ((((((((vm.r_a.b1 * 256 + vm.r_a.b2) * 256 + vm.r_a.b3) * 256
          + vm.r_a.b4) * 256 + vm.r_a.b5) * 256 + vm.r_x.b1) * 256
          + vm.r_x.b2) * 256 + vm.r_x.b3) * 256 + vm.r_x.b4) * 256
          + vm.r_x.b5
      let shifted_value : Nat :=
        if instr.field = 2 then orig_value * 2 ^ (count * 8 % 128) % 2 ^ 128
        else if instr.field = 3 then orig_value / 2 ^ (count * 8 % 128)
        else if instr.field = 6 then orig_value * 2 ^ (count % 128) % 2 ^ 128
        else orig_value / 2 ^ (count % 128)
      .ok { vm with
        r_a := { vm.r_a with
          b1 := byteOf shifted_value 9, b2 := byteOf shifted_value 8,
          b3 := byteOf shifted_value 7, b4 := byteOf shifted_value 6,
          b5 := byteOf shifted_value 5 },
        r_x := { vm.r_x with
          b1 := byteOf shifted_value 4, b2 := byteOf shifted_value 3,
          b3 := byteOf shifted_value 2, b4 := byteOf shifted_value 1,
          b5 := byteOf shifted_value 0 } }
    else if instr.field = 4 ∨ instr.field = 5 then
      let orig_bytes : List Nat :=
        [vm.r_a.b1, vm.r_a.b2, vm.r_a.b3, vm.r_a.b4, vm.r_a.b5,
         vm.r_x.b1, vm.r_x.b2, vm.r_x.b3, vm.r_x.b4, vm.r_x.b5]
      let offset := if instr.field = 4 then count % 10 else 10 - count % 10
      let g : Nat → Nat := fun j => orig_bytes.getD ((offset + j) % 10) 0
      .ok { vm with
        r_a := { vm.r_a with
          b1 := g 0, b2 := g 1, b3 := g 2, b4 := g 3, b5 := g 4 },
        r_x := { vm.r_x with
          b1 := g 5, b2 := g 6, b3 := g 7, b4 := g 8, b5 := g 9 } }
    else .err .InvalidField vm

/-- Handler for JBUS and JRED, mirroring VM::handle_instr_jbus_jred:
the device poll comes first, the jump address is only computed when the
jump is taken. -/
def handle_instr_jbus_jred (vm : VM) (instr : Instruction) : HRes :=
  match helper_get_io_device vm instr.field with
  | .error e => .err e vm
  | .ok dev =>
    match (match instr.opcode with
           | .Jbus => some dev.busy
           | .Jred => some dev.ready
           | _ => none) with
    | none => .panic
    | some ob =>
      match ob with
      | none => .err .IOError vm
      | some should_jump =>
        if should_jump then
          match helper_get_eff_addr vm instr.addr instr.index with
          | .error e => .err e vm
          | .ok jump_addr => .ok (helper_do_jump vm jump_addr true)
        else .ok vm

/-- Handler for IOC, mirroring VM::handle_instr_ioc: the command is the
unchecked effective address (panicking for an index part above 6). -/
def handle_instr_ioc (vm : VM) (instr : Instruction) : HRes :=
  match helper_get_eff_addr_unchecked vm instr.addr instr.index with
  | none => .panic
  | some command =>
    if instr.field < numDevices then
      match vm.io_devices instr.field with
      | none => .err .UnknownDevice vm
      | some dev =>
        match dev.controlF command with
        | none => .err .IOError vm
        | some dev1 =>
          .ok { vm with
            io_devices := Function.update vm.io_devices instr.field
              (some dev1) }
    else .err .InvalidField vm

/-- Handler for IN and OUT, mirroring VM::handle_instr_in_out: the
start address is range-checked against memory, then the device is
fetched, then the end address (start plus block size, wrapping u16) is
range-checked; a backwards slice panics. -/
def handle_instr_in_out (vm : VM) (instr : Instruction) : HRes :=
  match helper_get_eff_addr vm instr.addr instr.index with
  | .error e => .err e vm
  | .ok addr_start =>
    if addr_start < memSize then
      if instr.field < numDevices then
        match vm.io_devices instr.field with
        | none => .err .UnknownDevice vm
        | some dev =>
          let addr_end := (addr_start + dev.blockSize % 65536) % 65536
          if addr_end < memSize then
            if addr_start ≤ addr_end then
              let slice := (List.range (addr_end - addr_start)).map
                (fun i => vm.mem (addr_start + i))
              match instr.opcode with
              | .In =>
                match dev.readF slice with
                | none => .err .IOError vm
                | some p =>
                  .ok { vm with
                    mem := fun a =>
                      if addr_start ≤ a ∧ a < addr_end then
                        p.1.getD (a - addr_start) (vm.mem a)
                      else vm.mem a,
                    io_devices := Function.update vm.io_devices instr.field
                      (some p.2) }
              | .Out =>
                match dev.writeF slice with
                | none => .err .IOError vm
                | some dev1 =>
                  .ok { vm with
                    io_devices := Function.update vm.io_devices instr.field
                      (some dev1) }
              | _ => .panic
            else .panic
          else .err .InvalidAddress vm
      else .err .InvalidField vm
    else .err .InvalidAddress vm

end MixVM

namespace MixVM

/-- Per-opcode dispatch of one decoded instruction, mirroring the match
in VM::step. -/
def dispatch (fm : F32Model) (vm : VM) (instr : Instruction) : HRes :=
  match instr.opcode with
  | .Nop => handle_instr_nop vm instr
  | .Add => handle_instr_add_sub fm vm instr
  | .Sub => handle_instr_add_sub fm vm instr
  | .Mul => handle_instr_mul fm vm instr
  | .Div => handle_instr_div fm vm instr
  | .Special => handle_instr_special fm vm instr
  | .Shift => handle_instr_shift vm instr
  | .Move => handle_instr_move vm instr
  | .LdA => handle_instr_load_6b vm instr
  | .Ld1 => handle_instr_load_3b vm instr
  | .Ld2 => handle_instr_load_3b vm instr
  | .Ld3 => handle_instr_load_3b vm instr
  | .Ld4 => handle_instr_load_3b vm instr
  | .Ld5 => handle_instr_load_3b vm instr
  | .Ld6 => handle_instr_load_3b vm instr
  | .LdX => handle_instr_load_6b vm instr
  | .LdAN => handle_instr_load_neg_6b vm instr
  | .Ld1N => handle_instr_load_neg_3b vm instr
  | .Ld2N => handle_instr_load_neg_3b vm instr
  | .Ld3N => handle_instr_load_neg_3b vm instr
  | .Ld4N => handle_instr_load_neg_3b vm instr
  | .Ld5N => handle_instr_load_neg_3b vm instr
  | .Ld6N => handle_instr_load_neg_3b vm instr
  | .LdXN => handle_instr_load_neg_6b vm instr
  | .StA => handle_instr_store_6b vm instr
  | .St1 => handle_instr_store_3b vm instr
  | .St2 => handle_instr_store_3b vm instr
  | .St3 => handle_instr_store_3b vm instr
  | .St4 => handle_instr_store_3b vm instr
  | .St5 => handle_instr_store_3b vm instr
  | .St6 => handle_instr_store_3b vm instr
  | .StX => handle_instr_store_6b vm instr
  | .StJ => handle_instr_store_j vm instr
  | .StZ => handle_instr_store_zero vm instr
  | .Jbus => handle_instr_jbus_jred vm instr
  | .Ioc => handle_instr_ioc vm instr
  | .In => handle_instr_in_out vm instr
  | .Out => handle_instr_in_out vm instr
  | .Jred => handle_instr_jbus_jred vm instr
  | .Jmp => handle_instr_jmp vm instr
  | .JA => handle_instr_jmp_reg_6b vm instr
  | .J1 => handle_instr_jmp_reg_3b vm instr
  | .J2 => handle_instr_jmp_reg_3b vm instr
  | .J3 => handle_instr_jmp_reg_3b vm instr
  | .J4 => handle_instr_jmp_reg_3b vm instr
  | .J5 => handle_instr_jmp_reg_3b vm instr
  | .J6 => handle_instr_jmp_reg_3b vm instr
  | .JX => handle_instr_jmp_reg_6b vm instr
  | .ModifyA => handle_instr_modify_6b vm instr
  | .Modify1 => handle_instr_modify_3b vm instr
  | .Modify2 => handle_instr_modify_3b vm instr
  | .Modify3 => handle_instr_modify_3b vm instr
  | .Modify4 => handle_instr_modify_3b vm instr
  | .Modify5 => handle_instr_modify_3b vm instr
  | .Modify6 => handle_instr_modify_3b vm instr
  | .ModifyX => handle_instr_modify_6b vm instr
  | .CmpA => handle_instr_cmp_6b fm vm instr
  | .Cmp1 => handle_instr_cmp_3b vm instr
  | .Cmp2 => handle_instr_cmp_3b vm instr
  | .Cmp3 => handle_instr_cmp_3b vm instr
  | .Cmp4 => handle_instr_cmp_3b vm instr
  | .Cmp5 => handle_instr_cmp_3b vm instr
  | .Cmp6 => handle_instr_cmp_3b vm instr
  | .CmpX => handle_instr_cmp_6b fm vm instr

/-- One machine step, mirroring VM::step: a halted machine refuses to
run; the instruction is fetched from mem at pc (panicking past the end
of memory) and decoded (IllegalInstruction halts the machine with the
pc unmoved); the pc is incremented, the handler runs, and any handler
error halts the machine. -/
def step (fm : F32Model) (vm : VM) : HRes :=
  if vm.halted then .err .Halted vm
  else if vm.pc < memSize then
    match decode (vm.mem vm.pc) with
    | none => .err .IllegalInstruction vm.halt
    | some instr =>
      match dispatch fm { vm with pc := vm.pc + 1 } instr with
      | .panic => .panic
      | .err e vm1 => .err e vm1.halt
      | .ok vm1 => .ok vm1
  else .panic

/-- Installation of a device into a slot, corresponding to the direct
writes the host shell performs on the public io_devices field. -/
def VM.installDevice (vm : VM) (i : Nat) (d : IODev) : VM :=
  { vm with io_devices := Function.update vm.io_devices i (some d) }

/-- The machine states reachable from VM::new through the public
interface: reset, restart, device installation, and steps (keeping the
machine state an erroring step leaves behind as well as a successful
one; a panicking step produces no state). -/
inductive Reachable (fm : F32Model) : VM → Prop where
  | new : Reachable fm VM.new
  | reset : ∀ {vm}, Reachable fm vm → Reachable fm vm.reset
  | restart : ∀ {vm}, Reachable fm vm → Reachable fm vm.restart
  | install : ∀ {vm} (i : Nat) (d : IODev), Reachable fm vm →
      Reachable fm (vm.installDevice i d)
  | stepOk : ∀ {vm vm1}, Reachable fm vm → step fm vm = .ok vm1 →
      Reachable fm vm1
  | stepErr : ∀ {vm vm1 e}, Reachable fm vm → step fm vm = .err e vm1 →
      Reachable fm vm1

end MixVM

namespace MixVM

section HelperLemmas

variable {fm : F32Model} {vm vm' : VM} {instr : Instruction} {e : ErrorCode}

/-- An index part above 6 makes the checked effective-address helper
fail with InvalidIndex, whatever the rest of the state. -/
theorem helper_eff_addr_invalid_index (vm : VM) (a : Int) {i : Nat}
    (h : 7 ≤ i) : helper_get_eff_addr vm a i = .error .InvalidIndex := by
  unfold helper_get_eff_addr
  rw [if_neg (by omega)]

/-- A sum outside the u16 range makes the checked effective-address
helper fail with InvalidAddress. -/
theorem helper_eff_addr_invalid_addr (vm : VM) {a : Int} {i : Nat}
    (h : i ≤ 6)
    (h2 : (vm.r_in i).to_i64.1 + a < 0 ∨ 65535 < (vm.r_in i).to_i64.1 + a) :
    helper_get_eff_addr vm a i = .error .InvalidAddress := by
  unfold helper_get_eff_addr
  rw [if_pos h]
  simp only []
  rw [if_neg (by omega)]

/-- A sum inside the u16 range is returned by the checked
effective-address helper. -/
theorem helper_eff_addr_ok (vm : VM) {a : Int} {i : Nat} (h : i ≤ 6)
    (h2 : 0 ≤ (vm.r_in i).to_i64.1 + a)
    (h3 : (vm.r_in i).to_i64.1 + a ≤ 65535) :
    helper_get_eff_addr vm a i = .ok ((vm.r_in i).to_i64.1 + a).toNat := by
  unfold helper_get_eff_addr
  rw [if_pos h]
  simp only []
  rw [if_pos ⟨h2, h3⟩]

/-- An index part above 6 makes the unchecked effective-address helper
panic on the register-file access. -/
theorem helper_eff_addr_unchecked_panic (vm : VM) (a : Int) {i : Nat}
    (h : 7 ≤ i) : helper_get_eff_addr_unchecked vm a i = none := by
  unfold helper_get_eff_addr_unchecked
  rw [if_neg (by omega)]

/-- The checked effective-address helper ignores the program counter. -/
theorem helper_eff_addr_pc (vm : VM) (n : Nat) (a : Int) (i : Nat) :
    helper_get_eff_addr { vm with pc := n } a i =
      helper_get_eff_addr vm a i := rfl

/-- The unchecked effective-address helper ignores the program
counter. -/
theorem helper_eff_addr_unchecked_pc (vm : VM) (n : Nat) (a : Int)
    (i : Nat) :
    helper_get_eff_addr_unchecked { vm with pc := n } a i =
      helper_get_eff_addr_unchecked vm a i := rfl

/-- Reading memory past the end of the memory area panics. -/
theorem memRead_big {a : Nat} (vm : VM) (h : memSize ≤ a) :
    memRead vm a = none := by
  unfold memRead
  rw [if_neg (by omega)]

/-- Reading memory in range returns the cell. -/
theorem memRead_small {a : Nat} (vm : VM) (h : a < memSize) :
    memRead vm a = some (vm.mem a) := by
  unfold memRead
  rw [if_pos h]

/-- A non-halted step with a decodable instruction runs the dispatcher
on the pc-incremented state and halts the machine on a returned
error. -/
theorem step_eq_dispatch (fm : F32Model) (vm : VM) (instr : Instruction)
    (h1 : vm.halted = false) (h2 : vm.pc < memSize)
    (h3 : decode (vm.mem vm.pc) = some instr) :
    step fm vm =
      match dispatch fm { vm with pc := vm.pc + 1 } instr with
      | .panic => .panic
      | .err e vm1 => .err e vm1.halt
      | .ok vm1 => .ok vm1 := by
  unfold step
  rw [h1]
  simp only [Bool.false_eq_true, if_false, if_pos h2, h3]

end HelperLemmas

end MixVM

namespace MixVM

section HandlerErrLemmas

variable {fm : F32Model} {vm : VM} {instr : Instruction} {e : ErrorCode}
variable {addr : Nat}

/-- LDA/LDX propagate an effective-address failure unchanged. -/
theorem load_6b_helperErr
    (h : helper_get_eff_addr vm instr.addr instr.index = .error e) :
    handle_instr_load_6b vm instr = .err e vm := by
  unfold handle_instr_load_6b; rw [h]

/-- LDAN/LDXN propagate an effective-address failure unchanged. -/
theorem load_neg_6b_helperErr
    (h : helper_get_eff_addr vm instr.addr instr.index = .error e) :
    handle_instr_load_neg_6b vm instr = .err e vm := by
  unfold handle_instr_load_neg_6b; rw [h]

/-- LD1-6 propagate an effective-address failure unchanged. -/
theorem load_3b_helperErr
    (h : helper_get_eff_addr vm instr.addr instr.index = .error e) :
    handle_instr_load_3b vm instr = .err e vm := by
  unfold handle_instr_load_3b; rw [h]

/-- LD1-6N propagate an effective-address failure unchanged. -/
theorem load_neg_3b_helperErr
    (h : helper_get_eff_addr vm instr.addr instr.index = .error e) :
    handle_instr_load_neg_3b vm instr = .err e vm := by
  unfold handle_instr_load_neg_3b; rw [h]

/-- JMP propagates an effective-address failure unchanged. -/
theorem jmp_helperErr
    (h : helper_get_eff_addr vm instr.addr instr.index = .error e) :
    handle_instr_jmp vm instr = .err e vm := by
  unfold handle_instr_jmp; rw [h]

/-- STZ propagates an effective-address failure unchanged. -/
theorem store_zero_helperErr
    (h : helper_get_eff_addr vm instr.addr instr.index = .error e) :
    handle_instr_store_zero vm instr = .err e vm := by
  unfold handle_instr_store_zero; rw [h]

/-- MOVE propagates an effective-address failure unchanged. -/
theorem move_helperErr
    (h : helper_get_eff_addr vm instr.addr instr.index = .error e) :
    handle_instr_move vm instr = .err e vm := by
  unfold handle_instr_move; rw [h]

/-- STA/STX propagate an effective-address failure unchanged. -/
theorem store_6b_helperErr
    (h : helper_get_eff_addr vm instr.addr instr.index = .error e) :
    handle_instr_store_6b vm instr = .err e vm := by
  unfold handle_instr_store_6b; rw [h]

/-- ST1-6 propagate an effective-address failure unchanged. -/
theorem store_3b_helperErr
    (h : helper_get_eff_addr vm instr.addr instr.index = .error e) :
    handle_instr_store_3b vm instr = .err e vm := by
  unfold handle_instr_store_3b; rw [h]

/-- STJ propagates an effective-address failure unchanged. -/
theorem store_j_helperErr
    (h : helper_get_eff_addr vm instr.addr instr.index = .error e) :
    handle_instr_store_j vm instr = .err e vm := by
  unfold handle_instr_store_j; rw [h]

/-- INCA/DECA/ENTA/ENNA (and rX) propagate an effective-address
failure unchanged. -/
theorem modify_6b_helperErr
    (h : helper_get_eff_addr vm instr.addr instr.index = .error e) :
    handle_instr_modify_6b vm instr = .err e vm := by
  unfold handle_instr_modify_6b; rw [h]

/-- ADD/SUB propagate an effective-address failure unchanged. -/
theorem add_sub_helperErr
    (h : helper_get_eff_addr vm instr.addr instr.index = .error e) :
    handle_instr_add_sub fm vm instr = .err e vm := by
  unfold handle_instr_add_sub; rw [h]

/-- MUL propagates an effective-address failure unchanged. -/
theorem mul_helperErr
    (h : helper_get_eff_addr vm instr.addr instr.index = .error e) :
    handle_instr_mul fm vm instr = .err e vm := by
  unfold handle_instr_mul; rw [h]

/-- DIV propagates an effective-address failure unchanged. -/
theorem div_helperErr
    (h : helper_get_eff_addr vm instr.addr instr.index = .error e) :
    handle_instr_div fm vm instr = .err e vm := by
  unfold handle_instr_div; rw [h]

/-- CMPA/CMPX propagate an effective-address failure unchanged. -/
theorem cmp_6b_helperErr
    (h : helper_get_eff_addr vm instr.addr instr.index = .error e) :
    handle_instr_cmp_6b fm vm instr = .err e vm := by
  unfold handle_instr_cmp_6b; rw [h]

/-- CMP1-6 propagate an effective-address failure unchanged. -/
theorem cmp_3b_helperErr
    (h : helper_get_eff_addr vm instr.addr instr.index = .error e) :
    handle_instr_cmp_3b vm instr = .err e vm := by
  unfold handle_instr_cmp_3b; rw [h]

/-- JA/JX propagate an effective-address failure unchanged. -/
theorem jmp_reg_6b_helperErr
    (h : helper_get_eff_addr vm instr.addr instr.index = .error e) :
    handle_instr_jmp_reg_6b vm instr = .err e vm := by
  unfold handle_instr_jmp_reg_6b; rw [h]

/-- J1-6 propagate an effective-address failure unchanged. -/
theorem jmp_reg_3b_helperErr
    (h : helper_get_eff_addr vm instr.addr instr.index = .error e) :
    handle_instr_jmp_reg_3b vm instr = .err e vm := by
  unfold handle_instr_jmp_reg_3b; rw [h]

/-- The shift family propagates an effective-address failure
unchanged. -/
theorem shift_helperErr
    (h : helper_get_eff_addr vm instr.addr instr.index = .error e) :
    handle_instr_shift vm instr = .err e vm := by
  unfold handle_instr_shift; rw [h]

/-- IN/OUT propagate an effective-address failure unchanged. -/
theorem in_out_helperErr
    (h : helper_get_eff_addr vm instr.addr instr.index = .error e) :
    handle_instr_in_out vm instr = .err e vm := by
  unfold handle_instr_in_out; rw [h]

/-- The bitwise AND/OR/XOR sub-opcodes of Special propagate an
effective-address failure unchanged. -/
theorem special_bitwise_helperErr
    (hf : instr.field = 10 ∨ instr.field = 11 ∨ instr.field = 12)
    (h : helper_get_eff_addr vm instr.addr instr.index = .error e) :
    handle_instr_special fm vm instr = .err e vm := by
  rcases hf with hf | hf | hf <;>
    simp [handle_instr_special, hf, h]

/-- The INC/DEC/ENT/ENN1-6 family panics when the unchecked helper
panics. -/
theorem modify_3b_uncheckedPanic
    (h : helper_get_eff_addr_unchecked vm instr.addr instr.index = none) :
    handle_instr_modify_3b vm instr = .panic := by
  unfold handle_instr_modify_3b; rw [h]

/-- IOC panics when the unchecked helper panics. -/
theorem ioc_uncheckedPanic
    (h : helper_get_eff_addr_unchecked vm instr.addr instr.index = none) :
    handle_instr_ioc vm instr = .panic := by
  unfold handle_instr_ioc; rw [h]

end HandlerErrLemmas

end MixVM

namespace MixVM

section HandlerBigAddrLemmas

variable {fm : F32Model} {vm : VM} {instr : Instruction} {addr : Nat}

/-- LDA/LDX panic on an in-u16 effective address past the end of
memory. -/
theorem load_6b_bigAddr
    (h : helper_get_eff_addr vm instr.addr instr.index = .ok addr)
    (ha : memSize ≤ addr) : handle_instr_load_6b vm instr = .panic := by
  unfold handle_instr_load_6b; simp only [h, memRead_big vm ha]

/-- LDAN/LDXN panic on an in-u16 effective address past the end of
memory. -/
theorem load_neg_6b_bigAddr
    (h : helper_get_eff_addr vm instr.addr instr.index = .ok addr)
    (ha : memSize ≤ addr) : handle_instr_load_neg_6b vm instr = .panic := by
  unfold handle_instr_load_neg_6b; simp only [h, memRead_big vm ha]

/-- LD1-6 panic on an in-u16 effective address past the end of
memory. -/
theorem load_3b_bigAddr
    (h : helper_get_eff_addr vm instr.addr instr.index = .ok addr)
    (ha : memSize ≤ addr) : handle_instr_load_3b vm instr = .panic := by
  unfold handle_instr_load_3b; simp only [h, memRead_big vm ha]

/-- LD1-6N panic on an in-u16 effective address past the end of
memory. -/
theorem load_neg_3b_bigAddr
    (h : helper_get_eff_addr vm instr.addr instr.index = .ok addr)
    (ha : memSize ≤ addr) : handle_instr_load_neg_3b vm instr = .panic := by
  unfold handle_instr_load_neg_3b; simp only [h, memRead_big vm ha]

/-- STZ panics on an in-u16 effective address past the end of
memory. -/
theorem store_zero_bigAddr
    (h : helper_get_eff_addr vm instr.addr instr.index = .ok addr)
    (ha : memSize ≤ addr) : handle_instr_store_zero vm instr = .panic := by
  unfold handle_instr_store_zero; simp only [h, memRead_big vm ha]

/-- STA/STX panic on an in-u16 effective address past the end of
memory. -/
theorem store_6b_bigAddr
    (h : helper_get_eff_addr vm instr.addr instr.index = .ok addr)
    (ha : memSize ≤ addr) : handle_instr_store_6b vm instr = .panic := by
  unfold handle_instr_store_6b; simp only [h, memRead_big vm ha]

/-- ST1-6 panic on an in-u16 effective address past the end of
memory. -/
theorem store_3b_bigAddr
    (h : helper_get_eff_addr vm instr.addr instr.index = .ok addr)
    (ha : memSize ≤ addr) : handle_instr_store_3b vm instr = .panic := by
  unfold handle_instr_store_3b; simp only [h, memRead_big vm ha]

/-- STJ panics on an in-u16 effective address past the end of
memory. -/
theorem store_j_bigAddr
    (h : helper_get_eff_addr vm instr.addr instr.index = .ok addr)
    (ha : memSize ≤ addr) : handle_instr_store_j vm instr = .panic := by
  unfold handle_instr_store_j; simp only [h, memRead_big vm ha]

/-- ADD/SUB panic on an in-u16 effective address past the end of
memory. -/
theorem add_sub_bigAddr
    (h : helper_get_eff_addr vm instr.addr instr.index = .ok addr)
    (ha : memSize ≤ addr) : handle_instr_add_sub fm vm instr = .panic := by
  unfold handle_instr_add_sub; simp only [h, memRead_big vm ha]

/-- MUL panics on an in-u16 effective address past the end of
memory. -/
theorem mul_bigAddr
    (h : helper_get_eff_addr vm instr.addr instr.index = .ok addr)
    (ha : memSize ≤ addr) : handle_instr_mul fm vm instr = .panic := by
  unfold handle_instr_mul; simp only [h, memRead_big vm ha]

/-- DIV panics on an in-u16 effective address past the end of
memory. -/
theorem div_bigAddr
    (h : helper_get_eff_addr vm instr.addr instr.index = .ok addr)
    (ha : memSize ≤ addr) : handle_instr_div fm vm instr = .panic := by
  unfold handle_instr_div; simp only [h, memRead_big vm ha]

/-- CMPA/CMPX panic on an in-u16 effective address past the end of
memory. -/
theorem cmp_6b_bigAddr
    (h : helper_get_eff_addr vm instr.addr instr.index = .ok addr)
    (ha : memSize ≤ addr) : handle_instr_cmp_6b fm vm instr = .panic := by
  unfold handle_instr_cmp_6b; simp only [h, memRead_big vm ha]

/-- CMP1-6 panic on an in-u16 effective address past the end of
memory. -/
theorem cmp_3b_bigAddr
    (h : helper_get_eff_addr vm instr.addr instr.index = .ok addr)
    (ha : memSize ≤ addr) : handle_instr_cmp_3b vm instr = .panic := by
  unfold handle_instr_cmp_3b; simp only [h, memRead_big vm ha]

/-- The bitwise AND/OR/XOR sub-opcodes of Special panic on an in-u16
effective address past the end of memory. -/
theorem special_bitwise_bigAddr
    (hf : instr.field = 10 ∨ instr.field = 11 ∨ instr.field = 12)
    (h : helper_get_eff_addr vm instr.addr instr.index = .ok addr)
    (ha : memSize ≤ addr) : handle_instr_special fm vm instr = .panic := by
  rcases hf with hf | hf | hf <;>
    simp [handle_instr_special, hf, h, memRead_big vm ha]

/-- IN/OUT return InvalidAddress, leaving the state unchanged, on an
in-u16 effective address past the end of memory. -/
theorem in_out_bigAddr
    (h : helper_get_eff_addr vm instr.addr instr.index = .ok addr)
    (ha : memSize ≤ addr) :
    handle_instr_in_out vm instr = .err .InvalidAddress vm := by
  unfold handle_instr_in_out
  simp only [h, if_neg (show ¬ addr < memSize by omega)]

end HandlerBigAddrLemmas

end MixVM

namespace MixVM

section HandlerErrEqLemmas

variable {fm : F32Model} {vm vm' : VM} {instr : Instruction} {e : ErrorCode}

/-- An error return of the nop handler carries the input state
unchanged (the handler mutates nothing before any of its error
returns). -/
theorem nop_errEq (h : handle_instr_nop vm instr = .err e vm') : vm' = vm := by
  unfold handle_instr_nop at h
  exact HRes.noConfusion h

/-- An error return of the load_6b handler carries the input state
unchanged (the handler mutates nothing before any of its error
returns). -/
theorem load_6b_errEq (h : handle_instr_load_6b vm instr = .err e vm') : vm' = vm := by
  unfold handle_instr_load_6b at h
  repeat' (first | (split at h) | (simp only [] at h))
  all_goals first
    | exact HRes.noConfusion h
    | (injection h with h1 h2; exact h2.symm)

/-- An error return of the load_neg_6b handler carries the input state
unchanged (the handler mutates nothing before any of its error
returns). -/
theorem load_neg_6b_errEq (h : handle_instr_load_neg_6b vm instr = .err e vm') : vm' = vm := by
  unfold handle_instr_load_neg_6b at h
  repeat' (first | (split at h) | (simp only [] at h))
  all_goals first
    | exact HRes.noConfusion h
    | (injection h with h1 h2; exact h2.symm)

/-- An error return of the load_3b handler carries the input state
unchanged (the handler mutates nothing before any of its error
returns). -/
theorem load_3b_errEq (h : handle_instr_load_3b vm instr = .err e vm') : vm' = vm := by
  unfold handle_instr_load_3b at h
  repeat' (first | (split at h) | (simp only [] at h))
  all_goals first
    | exact HRes.noConfusion h
    | (injection h with h1 h2; exact h2.symm)

/-- An error return of the load_neg_3b handler carries the input state
unchanged (the handler mutates nothing before any of its error
returns). -/
theorem load_neg_3b_errEq (h : handle_instr_load_neg_3b vm instr = .err e vm') : vm' = vm := by
  unfold handle_instr_load_neg_3b at h
  repeat' (first | (split at h) | (simp only [] at h))
  all_goals first
    | exact HRes.noConfusion h
    | (injection h with h1 h2; exact h2.symm)

/-- An error return of the jmp handler carries the input state
unchanged (the handler mutates nothing before any of its error
returns). -/
theorem jmp_errEq (h : handle_instr_jmp vm instr = .err e vm') : vm' = vm := by
  unfold handle_instr_jmp at h
  repeat' (first | (split at h) | (simp only [] at h))
  all_goals first
    | exact HRes.noConfusion h
    | (injection h with h1 h2; exact h2.symm)

/-- An error return of the special handler carries the input state
unchanged (the handler mutates nothing before any of its error
returns). -/
theorem special_errEq (h : handle_instr_special fm vm instr = .err e vm') : vm' = vm := by
  unfold handle_instr_special at h
  repeat' (first | (split at h) | (simp only [] at h))
  all_goals first
    | exact HRes.noConfusion h
    | (injection h with h1 h2; exact h2.symm)

/-- An error return of the store_zero handler carries the input state
unchanged (the handler mutates nothing before any of its error
returns). -/
theorem store_zero_errEq (h : handle_instr_store_zero vm instr = .err e vm') : vm' = vm := by
  unfold handle_instr_store_zero at h
  repeat' (first | (split at h) | (simp only [] at h))
  all_goals first
    | exact HRes.noConfusion h
    | (injection h with h1 h2; exact h2.symm)

/-- An error return of the move handler carries the input state
unchanged (the handler mutates nothing before any of its error
returns). -/
theorem move_errEq (h : handle_instr_move vm instr = .err e vm') : vm' = vm := by
  unfold handle_instr_move at h
  repeat' (first | (split at h) | (simp only [] at h))
  all_goals first
    | exact HRes.noConfusion h
    | (injection h with h1 h2; exact h2.symm)

/-- An error return of the store_6b handler carries the input state
unchanged (the handler mutates nothing before any of its error
returns). -/
theorem store_6b_errEq (h : handle_instr_store_6b vm instr = .err e vm') : vm' = vm := by
  unfold handle_instr_store_6b at h
  repeat' (first | (split at h) | (simp only [] at h))
  all_goals first
    | exact HRes.noConfusion h
    | (injection h with h1 h2; exact h2.symm)

/-- An error return of the store_3b handler carries the input state
unchanged (the handler mutates nothing before any of its error
returns). -/
theorem store_3b_errEq (h : handle_instr_store_3b vm instr = .err e vm') : vm' = vm := by
  unfold handle_instr_store_3b at h
  repeat' (first | (split at h) | (simp only [] at h))
  all_goals first
    | exact HRes.noConfusion h
    | (injection h with h1 h2; exact h2.symm)

/-- An error return of the store_j handler carries the input state
unchanged (the handler mutates nothing before any of its error
returns). -/
theorem store_j_errEq (h : handle_instr_store_j vm instr = .err e vm') : vm' = vm := by
  unfold handle_instr_store_j at h
  repeat' (first | (split at h) | (simp only [] at h))
  all_goals first
    | exact HRes.noConfusion h
    | (injection h with h1 h2; exact h2.symm)

/-- An error return of the modify_6b handler carries the input state
unchanged (the handler mutates nothing before any of its error
returns). -/
theorem modify_6b_errEq (h : handle_instr_modify_6b vm instr = .err e vm') : vm' = vm := by
  unfold handle_instr_modify_6b at h
  repeat' (first | (split at h) | (simp only [] at h))
  all_goals first
    | exact HRes.noConfusion h
    | (injection h with h1 h2; exact h2.symm)

/-- An error return of the modify_3b handler carries the input state
unchanged (the handler mutates nothing before any of its error
returns). -/
theorem modify_3b_errEq (h : handle_instr_modify_3b vm instr = .err e vm') : vm' = vm := by
  unfold handle_instr_modify_3b at h
  repeat' (first | (split at h) | (simp only [] at h))
  all_goals first
    | exact HRes.noConfusion h
    | (injection h with h1 h2; exact h2.symm)

/-- An error return of the add_sub handler carries the input state
unchanged (the handler mutates nothing before any of its error
returns). -/
theorem add_sub_errEq (h : handle_instr_add_sub fm vm instr = .err e vm') : vm' = vm := by
  unfold handle_instr_add_sub at h
  repeat' (first | (split at h) | (simp only [] at h))
  all_goals first
    | exact HRes.noConfusion h
    | (injection h with h1 h2; exact h2.symm)

/-- An error return of the mul handler carries the input state
unchanged (the handler mutates nothing before any of its error
returns). -/
theorem mul_errEq (h : handle_instr_mul fm vm instr = .err e vm') : vm' = vm := by
  unfold handle_instr_mul at h
  repeat' (first | (split at h) | (simp only [] at h))
  all_goals first
    | exact HRes.noConfusion h
    | (injection h with h1 h2; exact h2.symm)

/-- An error return of the div handler carries the input state
unchanged (the handler mutates nothing before any of its error
returns). -/
theorem div_errEq (h : handle_instr_div fm vm instr = .err e vm') : vm' = vm := by
  unfold handle_instr_div at h
  repeat' (first | (split at h) | (simp only [] at h))
  all_goals first
    | exact HRes.noConfusion h
    | (injection h with h1 h2; exact h2.symm)

/-- An error return of the cmp_6b handler carries the input state
unchanged (the handler mutates nothing before any of its error
returns). -/
theorem cmp_6b_errEq (h : handle_instr_cmp_6b fm vm instr = .err e vm') : vm' = vm := by
  unfold handle_instr_cmp_6b at h
  repeat' (first | (split at h) | (simp only [] at h))
  all_goals first
    | exact HRes.noConfusion h
    | (injection h with h1 h2; exact h2.symm)

/-- An error return of the cmp_3b handler carries the input state
unchanged (the handler mutates nothing before any of its error
returns). -/
theorem cmp_3b_errEq (h : handle_instr_cmp_3b vm instr = .err e vm') : vm' = vm := by
  unfold handle_instr_cmp_3b at h
  repeat' (first | (split at h) | (simp only [] at h))
  all_goals first
    | exact HRes.noConfusion h
    | (injection h with h1 h2; exact h2.symm)

/-- An error return of the jmp_reg_6b handler carries the input state
unchanged (the handler mutates nothing before any of its error
returns). -/
theorem jmp_reg_6b_errEq (h : handle_instr_jmp_reg_6b vm instr = .err e vm') : vm' = vm := by
  unfold handle_instr_jmp_reg_6b at h
  repeat' (first | (split at h) | (simp only [] at h))
  all_goals first
    | exact HRes.noConfusion h
    | (injection h with h1 h2; exact h2.symm)

/-- An error return of the jmp_reg_3b handler carries the input state
unchanged (the handler mutates nothing before any of its error
returns). -/
theorem jmp_reg_3b_errEq (h : handle_instr_jmp_reg_3b vm instr = .err e vm') : vm' = vm := by
  unfold handle_instr_jmp_reg_3b at h
  repeat' (first | (split at h) | (simp only [] at h))
  all_goals first
    | exact HRes.noConfusion h
    | (injection h with h1 h2; exact h2.symm)

/-- An error return of the shift handler carries the input state
unchanged (the handler mutates nothing before any of its error
returns). -/
theorem shift_errEq (h : handle_instr_shift vm instr = .err e vm') : vm' = vm := by
  unfold handle_instr_shift at h
  repeat' (first | (split at h) | (simp only [] at h))
  all_goals first
    | exact HRes.noConfusion h
    | (injection h with h1 h2; exact h2.symm)

/-- An error return of the jbus_jred handler carries the input state
unchanged (the handler mutates nothing before any of its error
returns). -/
theorem jbus_jred_errEq (h : handle_instr_jbus_jred vm instr = .err e vm') : vm' = vm := by
  unfold handle_instr_jbus_jred at h
  repeat' (first | (split at h) | (simp only [] at h))
  all_goals first
    | exact HRes.noConfusion h
    | (injection h with h1 h2; exact h2.symm)

/-- An error return of the ioc handler carries the input state
unchanged (the handler mutates nothing before any of its error
returns). -/
theorem ioc_errEq (h : handle_instr_ioc vm instr = .err e vm') : vm' = vm := by
  unfold handle_instr_ioc at h
  repeat' (first | (split at h) | (simp only [] at h))
  all_goals first
    | exact HRes.noConfusion h
    | (injection h with h1 h2; exact h2.symm)

/-- An error return of the in_out handler carries the input state
unchanged (the handler mutates nothing before any of its error
returns). -/
theorem in_out_errEq (h : handle_instr_in_out vm instr = .err e vm') : vm' = vm := by
  unfold handle_instr_in_out at h
  repeat' (first | (split at h) | (simp only [] at h))
  all_goals first
    | exact HRes.noConfusion h
    | (injection h with h1 h2; exact h2.symm)

end HandlerErrEqLemmas

end MixVM

namespace MixVM

section HandlerOkFrameLemmas

variable {fm : F32Model} {vm vm' : VM} {instr : Instruction}

/-- A jump leaves the sign byte of rJ alone (only the two magnitude
bytes are written). -/
theorem do_jump_rj0 (vm : VM) (loc : Nat) (s : Bool) :
    (helper_do_jump vm loc s).r_j.b0 = vm.r_j.b0 := by
  unfold helper_do_jump; split <;> rfl

/-- A jump leaves the index register file alone. -/
theorem do_jump_rin (vm : VM) (loc : Nat) (s : Bool) :
    (helper_do_jump vm loc s).r_in = vm.r_in := by
  unfold helper_do_jump; split <;> rfl

/-- A successful run of the nop handler preserves the sign byte of
rJ and the constant-zero slot 0 of the index register file. -/
theorem nop_okFrame (h : handle_instr_nop vm instr = .ok vm') :
    vm'.r_j.b0 = vm.r_j.b0 ∧ vm'.r_in 0 = vm.r_in 0 := by
  unfold handle_instr_nop at h
  repeat' (first | (split at h) | (simp only [] at h))
  all_goals first
    | exact HRes.noConfusion h
    | (injection h with h1; subst h1;
       constructor <;> (repeat' split) <;>
         first
           | rfl
           | (simp [do_jump_rj0, do_jump_rin]; done)
           | exact Function.update_noteq (by decide) _ _
           | (refine Function.update_noteq ?_ _ _
              intro hk0
              subst hk0
              rcases hop : instr.opcode <;>
                simp_all [ldIndex, ldnIndex, modifyIndex]))

/-- A successful run of the load_6b handler preserves the sign byte of
rJ and the constant-zero slot 0 of the index register file. -/
theorem load_6b_okFrame (h : handle_instr_load_6b vm instr = .ok vm') :
    vm'.r_j.b0 = vm.r_j.b0 ∧ vm'.r_in 0 = vm.r_in 0 := by
  unfold handle_instr_load_6b at h
  repeat' (first | (split at h) | (simp only [] at h))
  all_goals first
    | exact HRes.noConfusion h
    | (injection h with h1; subst h1;
       constructor <;> (repeat' split) <;>
         first
           | rfl
           | (simp [do_jump_rj0, do_jump_rin]; done)
           | exact Function.update_noteq (by decide) _ _
           | (refine Function.update_noteq ?_ _ _
              intro hk0
              subst hk0
              rcases hop : instr.opcode <;>
                simp_all [ldIndex, ldnIndex, modifyIndex]))

/-- A successful run of the load_neg_6b handler preserves the sign byte of
rJ and the constant-zero slot 0 of the index register file. -/
theorem load_neg_6b_okFrame (h : handle_instr_load_neg_6b vm instr = .ok vm') :
    vm'.r_j.b0 = vm.r_j.b0 ∧ vm'.r_in 0 = vm.r_in 0 := by
  unfold handle_instr_load_neg_6b at h
  repeat' (first | (split at h) | (simp only [] at h))
  all_goals first
    | exact HRes.noConfusion h
    | (injection h with h1; subst h1;
       constructor <;> (repeat' split) <;>
         first
           | rfl
           | (simp [do_jump_rj0, do_jump_rin]; done)
           | exact Function.update_noteq (by decide) _ _
           | (refine Function.update_noteq ?_ _ _
              intro hk0
              subst hk0
              rcases hop : instr.opcode <;>
                simp_all [ldIndex, ldnIndex, modifyIndex]))

/-- A successful run of the load_3b handler preserves the sign byte of
rJ and the constant-zero slot 0 of the index register file. -/
theorem load_3b_okFrame (h : handle_instr_load_3b vm instr = .ok vm') :
    vm'.r_j.b0 = vm.r_j.b0 ∧ vm'.r_in 0 = vm.r_in 0 := by
  unfold handle_instr_load_3b at h
  repeat' (first | (split at h) | (simp only [] at h))
  all_goals first
    | exact HRes.noConfusion h
    | (injection h with h1; subst h1;
       constructor <;> (repeat' split) <;>
         first
           | rfl
           | (simp [do_jump_rj0, do_jump_rin]; done)
           | exact Function.update_noteq (by decide) _ _
           | (refine Function.update_noteq ?_ _ _
              intro hk0
              subst hk0
              rcases hop : instr.opcode <;>
                simp_all [ldIndex, ldnIndex, modifyIndex]))

/-- A successful run of the load_neg_3b handler preserves the sign byte of
rJ and the constant-zero slot 0 of the index register file. -/
theorem load_neg_3b_okFrame (h : handle_instr_load_neg_3b vm instr = .ok vm') :
    vm'.r_j.b0 = vm.r_j.b0 ∧ vm'.r_in 0 = vm.r_in 0 := by
  unfold handle_instr_load_neg_3b at h
  repeat' (first | (split at h) | (simp only [] at h))
  all_goals first
    | exact HRes.noConfusion h
    | (injection h with h1; subst h1;
       constructor <;> (repeat' split) <;>
         first
           | rfl
           | (simp [do_jump_rj0, do_jump_rin]; done)
           | exact Function.update_noteq (by decide) _ _
           | (refine Function.update_noteq ?_ _ _
              intro hk0
              subst hk0
              rcases hop : instr.opcode <;>
                simp_all [ldIndex, ldnIndex, modifyIndex]))

/-- A successful run of the jmp handler preserves the sign byte of
rJ and the constant-zero slot 0 of the index register file. -/
theorem jmp_okFrame (h : handle_instr_jmp vm instr = .ok vm') :
    vm'.r_j.b0 = vm.r_j.b0 ∧ vm'.r_in 0 = vm.r_in 0 := by
  unfold handle_instr_jmp at h
  repeat' (first | (split at h) | (simp only [] at h))
  all_goals first
    | exact HRes.noConfusion h
    | (injection h with h1; subst h1;
       constructor <;> (repeat' split) <;>
         first
           | rfl
           | (simp [do_jump_rj0, do_jump_rin]; done)
           | exact Function.update_noteq (by decide) _ _
           | (refine Function.update_noteq ?_ _ _
              intro hk0
              subst hk0
              rcases hop : instr.opcode <;>
                simp_all [ldIndex, ldnIndex, modifyIndex]))

/-- A successful run of the special handler preserves the sign byte of
rJ and the constant-zero slot 0 of the index register file. -/
theorem special_okFrame (h : handle_instr_special fm vm instr = .ok vm') :
    vm'.r_j.b0 = vm.r_j.b0 ∧ vm'.r_in 0 = vm.r_in 0 := by
  unfold handle_instr_special at h
  repeat' (first | (split at h) | (simp only [] at h))
  all_goals first
    | exact HRes.noConfusion h
    | (injection h with h1; subst h1;
       constructor <;> (repeat' split) <;>
         first
           | rfl
           | (simp [do_jump_rj0, do_jump_rin]; done)
           | exact Function.update_noteq (by decide) _ _
           | (refine Function.update_noteq ?_ _ _
              intro hk0
              subst hk0
              rcases hop : instr.opcode <;>
                simp_all [ldIndex, ldnIndex, modifyIndex]))

/-- A successful run of the store_zero handler preserves the sign byte of
rJ and the constant-zero slot 0 of the index register file. -/
theorem store_zero_okFrame (h : handle_instr_store_zero vm instr = .ok vm') :
    vm'.r_j.b0 = vm.r_j.b0 ∧ vm'.r_in 0 = vm.r_in 0 := by
  unfold handle_instr_store_zero at h
  repeat' (first | (split at h) | (simp only [] at h))
  all_goals first
    | exact HRes.noConfusion h
    | (injection h with h1; subst h1;
       constructor <;> (repeat' split) <;>
         first
           | rfl
           | (simp [do_jump_rj0, do_jump_rin]; done)
           | exact Function.update_noteq (by decide) _ _
           | (refine Function.update_noteq ?_ _ _
              intro hk0
              subst hk0
              rcases hop : instr.opcode <;>
                simp_all [ldIndex, ldnIndex, modifyIndex]))

/-- A successful run of the move handler preserves the sign byte of
rJ and the constant-zero slot 0 of the index register file. -/
theorem move_okFrame (h : handle_instr_move vm instr = .ok vm') :
    vm'.r_j.b0 = vm.r_j.b0 ∧ vm'.r_in 0 = vm.r_in 0 := by
  unfold handle_instr_move at h
  repeat' (first | (split at h) | (simp only [] at h))
  all_goals first
    | exact HRes.noConfusion h
    | (injection h with h1; subst h1;
       constructor <;> (repeat' split) <;>
         first
           | rfl
           | (simp [do_jump_rj0, do_jump_rin]; done)
           | exact Function.update_noteq (by decide) _ _
           | (refine Function.update_noteq ?_ _ _
              intro hk0
              subst hk0
              rcases hop : instr.opcode <;>
                simp_all [ldIndex, ldnIndex, modifyIndex]))

/-- A successful run of the store_6b handler preserves the sign byte of
rJ and the constant-zero slot 0 of the index register file. -/
theorem store_6b_okFrame (h : handle_instr_store_6b vm instr = .ok vm') :
    vm'.r_j.b0 = vm.r_j.b0 ∧ vm'.r_in 0 = vm.r_in 0 := by
  unfold handle_instr_store_6b at h
  repeat' (first | (split at h) | (simp only [] at h))
  all_goals first
    | exact HRes.noConfusion h
    | (injection h with h1; subst h1;
       constructor <;> (repeat' split) <;>
         first
           | rfl
           | (simp [do_jump_rj0, do_jump_rin]; done)
           | exact Function.update_noteq (by decide) _ _
           | (refine Function.update_noteq ?_ _ _
              intro hk0
              subst hk0
              rcases hop : instr.opcode <;>
                simp_all [ldIndex, ldnIndex, modifyIndex]))

/-- A successful run of the store_3b handler preserves the sign byte of
rJ and the constant-zero slot 0 of the index register file. -/
theorem store_3b_okFrame (h : handle_instr_store_3b vm instr = .ok vm') :
    vm'.r_j.b0 = vm.r_j.b0 ∧ vm'.r_in 0 = vm.r_in 0 := by
  unfold handle_instr_store_3b at h
  repeat' (first | (split at h) | (simp only [] at h))
  all_goals first
    | exact HRes.noConfusion h
    | (injection h with h1; subst h1;
       constructor <;> (repeat' split) <;>
         first
           | rfl
           | (simp [do_jump_rj0, do_jump_rin]; done)
           | exact Function.update_noteq (by decide) _ _
           | (refine Function.update_noteq ?_ _ _
              intro hk0
              subst hk0
              rcases hop : instr.opcode <;>
                simp_all [ldIndex, ldnIndex, modifyIndex]))

/-- A successful run of the store_j handler preserves the sign byte of
rJ and the constant-zero slot 0 of the index register file. -/
theorem store_j_okFrame (h : handle_instr_store_j vm instr = .ok vm') :
    vm'.r_j.b0 = vm.r_j.b0 ∧ vm'.r_in 0 = vm.r_in 0 := by
  unfold handle_instr_store_j at h
  repeat' (first | (split at h) | (simp only [] at h))
  all_goals first
    | exact HRes.noConfusion h
    | (injection h with h1; subst h1;
       constructor <;> (repeat' split) <;>
         first
           | rfl
           | (simp [do_jump_rj0, do_jump_rin]; done)
           | exact Function.update_noteq (by decide) _ _
           | (refine Function.update_noteq ?_ _ _
              intro hk0
              subst hk0
              rcases hop : instr.opcode <;>
                simp_all [ldIndex, ldnIndex, modifyIndex]))

/-- A successful run of the modify_6b handler preserves the sign byte of
rJ and the constant-zero slot 0 of the index register file. -/
theorem modify_6b_okFrame (h : handle_instr_modify_6b vm instr = .ok vm') :
    vm'.r_j.b0 = vm.r_j.b0 ∧ vm'.r_in 0 = vm.r_in 0 := by
  unfold handle_instr_modify_6b at h
  repeat' (first | (split at h) | (simp only [] at h))
  all_goals first
    | exact HRes.noConfusion h
    | (injection h with h1; subst h1;
       constructor <;> (repeat' split) <;>
         first
           | rfl
           | (simp [do_jump_rj0, do_jump_rin]; done)
           | exact Function.update_noteq (by decide) _ _
           | (refine Function.update_noteq ?_ _ _
              intro hk0
              subst hk0
              rcases hop : instr.opcode <;>
                simp_all [ldIndex, ldnIndex, modifyIndex]))

/-- A successful run of the modify_3b handler preserves the sign byte of
rJ and the constant-zero slot 0 of the index register file. -/
theorem modify_3b_okFrame (h : handle_instr_modify_3b vm instr = .ok vm') :
    vm'.r_j.b0 = vm.r_j.b0 ∧ vm'.r_in 0 = vm.r_in 0 := by
  unfold handle_instr_modify_3b at h
  repeat' (first | (split at h) | (simp only [] at h))
  all_goals first
    | exact HRes.noConfusion h
    | (injection h with h1; subst h1;
       constructor <;> (repeat' split) <;>
         first
           | rfl
           | (simp [do_jump_rj0, do_jump_rin]; done)
           | exact Function.update_noteq (by decide) _ _
           | (refine Function.update_noteq ?_ _ _
              intro hk0
              subst hk0
              rcases hop : instr.opcode <;>
                simp_all [ldIndex, ldnIndex, modifyIndex]))

/-- A successful run of the add_sub handler preserves the sign byte of
rJ and the constant-zero slot 0 of the index register file. -/
theorem add_sub_okFrame (h : handle_instr_add_sub fm vm instr = .ok vm') :
    vm'.r_j.b0 = vm.r_j.b0 ∧ vm'.r_in 0 = vm.r_in 0 := by
  unfold handle_instr_add_sub at h
  repeat' (first | (split at h) | (simp only [] at h))
  all_goals first
    | exact HRes.noConfusion h
    | (injection h with h1; subst h1;
       constructor <;> (repeat' split) <;>
         first
           | rfl
           | (simp [do_jump_rj0, do_jump_rin]; done)
           | exact Function.update_noteq (by decide) _ _
           | (refine Function.update_noteq ?_ _ _
              intro hk0
              subst hk0
              rcases hop : instr.opcode <;>
                simp_all [ldIndex, ldnIndex, modifyIndex]))

/-- A successful run of the mul handler preserves the sign byte of
rJ and the constant-zero slot 0 of the index register file. -/
theorem mul_okFrame (h : handle_instr_mul fm vm instr = .ok vm') :
    vm'.r_j.b0 = vm.r_j.b0 ∧ vm'.r_in 0 = vm.r_in 0 := by
  unfold handle_instr_mul at h
  repeat' (first | (split at h) | (simp only [] at h))
  all_goals first
    | exact HRes.noConfusion h
    | (injection h with h1; subst h1;
       constructor <;> (repeat' split) <;>
         first
           | rfl
           | (simp [do_jump_rj0, do_jump_rin]; done)
           | exact Function.update_noteq (by decide) _ _
           | (refine Function.update_noteq ?_ _ _
              intro hk0
              subst hk0
              rcases hop : instr.opcode <;>
                simp_all [ldIndex, ldnIndex, modifyIndex]))

/-- A successful run of the div handler preserves the sign byte of
rJ and the constant-zero slot 0 of the index register file. -/
theorem div_okFrame (h : handle_instr_div fm vm instr = .ok vm') :
    vm'.r_j.b0 = vm.r_j.b0 ∧ vm'.r_in 0 = vm.r_in 0 := by
  unfold handle_instr_div at h
  repeat' (first | (split at h) | (simp only [] at h))
  all_goals first
    | exact HRes.noConfusion h
    | (injection h with h1; subst h1;
       constructor <;> (repeat' split) <;>
         first
           | rfl
           | (simp [do_jump_rj0, do_jump_rin]; done)
           | exact Function.update_noteq (by decide) _ _
           | (refine Function.update_noteq ?_ _ _
              intro hk0
              subst hk0
              rcases hop : instr.opcode <;>
                simp_all [ldIndex, ldnIndex, modifyIndex]))

/-- A successful run of the cmp_6b handler preserves the sign byte of
rJ and the constant-zero slot 0 of the index register file. -/
theorem cmp_6b_okFrame (h : handle_instr_cmp_6b fm vm instr = .ok vm') :
    vm'.r_j.b0 = vm.r_j.b0 ∧ vm'.r_in 0 = vm.r_in 0 := by
  unfold handle_instr_cmp_6b at h
  repeat' (first | (split at h) | (simp only [] at h))
  all_goals first
    | exact HRes.noConfusion h
    | (injection h with h1; subst h1;
       constructor <;> (repeat' split) <;>
         first
           | rfl
           | (simp [do_jump_rj0, do_jump_rin]; done)
           | exact Function.update_noteq (by decide) _ _
           | (refine Function.update_noteq ?_ _ _
              intro hk0
              subst hk0
              rcases hop : instr.opcode <;>
                simp_all [ldIndex, ldnIndex, modifyIndex]))

/-- A successful run of the cmp_3b handler preserves the sign byte of
rJ and the constant-zero slot 0 of the index register file. -/
theorem cmp_3b_okFrame (h : handle_instr_cmp_3b vm instr = .ok vm') :
    vm'.r_j.b0 = vm.r_j.b0 ∧ vm'.r_in 0 = vm.r_in 0 := by
  unfold handle_instr_cmp_3b at h
  repeat' (first | (split at h) | (simp only [] at h))
  all_goals first
    | exact HRes.noConfusion h
    | (injection h with h1; subst h1;
       constructor <;> (repeat' split) <;>
         first
           | rfl
           | (simp [do_jump_rj0, do_jump_rin]; done)
           | exact Function.update_noteq (by decide) _ _
           | (refine Function.update_noteq ?_ _ _
              intro hk0
              subst hk0
              rcases hop : instr.opcode <;>
                simp_all [ldIndex, ldnIndex, modifyIndex]))

/-- A successful run of the jmp_reg_6b handler preserves the sign byte of
rJ and the constant-zero slot 0 of the index register file. -/
theorem jmp_reg_6b_okFrame (h : handle_instr_jmp_reg_6b vm instr = .ok vm') :
    vm'.r_j.b0 = vm.r_j.b0 ∧ vm'.r_in 0 = vm.r_in 0 := by
  unfold handle_instr_jmp_reg_6b at h
  repeat' (first | (split at h) | (simp only [] at h))
  all_goals first
    | exact HRes.noConfusion h
    | (injection h with h1; subst h1;
       constructor <;> (repeat' split) <;>
         first
           | rfl
           | (simp [do_jump_rj0, do_jump_rin]; done)
           | exact Function.update_noteq (by decide) _ _
           | (refine Function.update_noteq ?_ _ _
              intro hk0
              subst hk0
              rcases hop : instr.opcode <;>
                simp_all [ldIndex, ldnIndex, modifyIndex]))

/-- A successful run of the jmp_reg_3b handler preserves the sign byte of
rJ and the constant-zero slot 0 of the index register file. -/
theorem jmp_reg_3b_okFrame (h : handle_instr_jmp_reg_3b vm instr = .ok vm') :
    vm'.r_j.b0 = vm.r_j.b0 ∧ vm'.r_in 0 = vm.r_in 0 := by
  unfold handle_instr_jmp_reg_3b at h
  repeat' (first | (split at h) | (simp only [] at h))
  all_goals first
    | exact HRes.noConfusion h
    | (injection h with h1; subst h1;
       constructor <;> (repeat' split) <;>
         first
           | rfl
           | (simp [do_jump_rj0, do_jump_rin]; done)
           | exact Function.update_noteq (by decide) _ _
           | (refine Function.update_noteq ?_ _ _
              intro hk0
              subst hk0
              rcases hop : instr.opcode <;>
                simp_all [ldIndex, ldnIndex, modifyIndex]))

/-- A successful run of the shift handler preserves the sign byte of
rJ and the constant-zero slot 0 of the index register file. -/
theorem shift_okFrame (h : handle_instr_shift vm instr = .ok vm') :
    vm'.r_j.b0 = vm.r_j.b0 ∧ vm'.r_in 0 = vm.r_in 0 := by
  unfold handle_instr_shift at h
  repeat' (first | (split at h) | (simp only [] at h))
  all_goals first
    | exact HRes.noConfusion h
    | (injection h with h1; subst h1;
       constructor <;> (repeat' split) <;>
         first
           | rfl
           | (simp [do_jump_rj0, do_jump_rin]; done)
           | exact Function.update_noteq (by decide) _ _
           | (refine Function.update_noteq ?_ _ _
              intro hk0
              subst hk0
              rcases hop : instr.opcode <;>
                simp_all [ldIndex, ldnIndex, modifyIndex]))

/-- A successful run of the jbus_jred handler preserves the sign byte of
rJ and the constant-zero slot 0 of the index register file. -/
theorem jbus_jred_okFrame (h : handle_instr_jbus_jred vm instr = .ok vm') :
    vm'.r_j.b0 = vm.r_j.b0 ∧ vm'.r_in 0 = vm.r_in 0 := by
  unfold handle_instr_jbus_jred at h
  repeat' (first | (split at h) | (simp only [] at h))
  all_goals first
    | exact HRes.noConfusion h
    | (injection h with h1; subst h1;
       constructor <;> (repeat' split) <;>
         first
           | rfl
           | (simp [do_jump_rj0, do_jump_rin]; done)
           | exact Function.update_noteq (by decide) _ _
           | (refine Function.update_noteq ?_ _ _
              intro hk0
              subst hk0
              rcases hop : instr.opcode <;>
                simp_all [ldIndex, ldnIndex, modifyIndex]))

/-- A successful run of the ioc handler preserves the sign byte of
rJ and the constant-zero slot 0 of the index register file. -/
theorem ioc_okFrame (h : handle_instr_ioc vm instr = .ok vm') :
    vm'.r_j.b0 = vm.r_j.b0 ∧ vm'.r_in 0 = vm.r_in 0 := by
  unfold handle_instr_ioc at h
  repeat' (first | (split at h) | (simp only [] at h))
  all_goals first
    | exact HRes.noConfusion h
    | (injection h with h1; subst h1;
       constructor <;> (repeat' split) <;>
         first
           | rfl
           | (simp [do_jump_rj0, do_jump_rin]; done)
           | exact Function.update_noteq (by decide) _ _
           | (refine Function.update_noteq ?_ _ _
              intro hk0
              subst hk0
              rcases hop : instr.opcode <;>
                simp_all [ldIndex, ldnIndex, modifyIndex]))

/-- A successful run of the in_out handler preserves the sign byte of
rJ and the constant-zero slot 0 of the index register file. -/
theorem in_out_okFrame (h : handle_instr_in_out vm instr = .ok vm') :
    vm'.r_j.b0 = vm.r_j.b0 ∧ vm'.r_in 0 = vm.r_in 0 := by
  unfold handle_instr_in_out at h
  repeat' (first | (split at h) | (simp only [] at h))
  all_goals first
    | exact HRes.noConfusion h
    | (injection h with h1; subst h1;
       constructor <;> (repeat' split) <;>
         first
           | rfl
           | (simp [do_jump_rj0, do_jump_rin]; done)
           | exact Function.update_noteq (by decide) _ _
           | (refine Function.update_noteq ?_ _ _
              intro hk0
              subst hk0
              rcases hop : instr.opcode <;>
                simp_all [ldIndex, ldnIndex, modifyIndex]))

end HandlerOkFrameLemmas

end MixVM

namespace MixVM

section DispatchLemmas

variable {fm : F32Model} {vm vm' : VM} {instr : Instruction} {e : ErrorCode}

/-- An error return of the dispatcher carries the input state
unchanged: no handler mutates anything before an error return. -/
theorem dispatch_errEq (h : dispatch fm vm instr = .err e vm') :
    vm' = vm := by
  unfold dispatch at h
  rcases hop : instr.opcode
  case Nop => simp only [hop] at h; exact nop_errEq h
  case Add => simp only [hop] at h; exact add_sub_errEq h
  case Sub => simp only [hop] at h; exact add_sub_errEq h
  case Mul => simp only [hop] at h; exact mul_errEq h
  case Div => simp only [hop] at h; exact div_errEq h
  case Special => simp only [hop] at h; exact special_errEq h
  case Shift => simp only [hop] at h; exact shift_errEq h
  case Move => simp only [hop] at h; exact move_errEq h
  case LdA => simp only [hop] at h; exact load_6b_errEq h
  case Ld1 => simp only [hop] at h; exact load_3b_errEq h
  case Ld2 => simp only [hop] at h; exact load_3b_errEq h
  case Ld3 => simp only [hop] at h; exact load_3b_errEq h
  case Ld4 => simp only [hop] at h; exact load_3b_errEq h
  case Ld5 => simp only [hop] at h; exact load_3b_errEq h
  case Ld6 => simp only [hop] at h; exact load_3b_errEq h
  case LdX => simp only [hop] at h; exact load_6b_errEq h
  case LdAN => simp only [hop] at h; exact load_neg_6b_errEq h
  case Ld1N => simp only [hop] at h; exact load_neg_3b_errEq h
  case Ld2N => simp only [hop] at h; exact load_neg_3b_errEq h
  case Ld3N => simp only [hop] at h; exact load_neg_3b_errEq h
  case Ld4N => simp only [hop] at h; exact load_neg_3b_errEq h
  case Ld5N => simp only [hop] at h; exact load_neg_3b_errEq h
  case Ld6N => simp only [hop] at h; exact load_neg_3b_errEq h
  case LdXN => simp only [hop] at h; exact load_neg_6b_errEq h
  case StA => simp only [hop] at h; exact store_6b_errEq h
  case St1 => simp only [hop] at h; exact store_3b_errEq h
  case St2 => simp only [hop] at h; exact store_3b_errEq h
  case St3 => simp only [hop] at h; exact store_3b_errEq h
  case St4 => simp only [hop] at h; exact store_3b_errEq h
  case St5 => simp only [hop] at h; exact store_3b_errEq h
  case St6 => simp only [hop] at h; exact store_3b_errEq h
  case StX => simp only [hop] at h; exact store_6b_errEq h
  case StJ => simp only [hop] at h; exact store_j_errEq h
  case StZ => simp only [hop] at h; exact store_zero_errEq h
  case Jbus => simp only [hop] at h; exact jbus_jred_errEq h
  case Ioc => simp only [hop] at h; exact ioc_errEq h
  case In => simp only [hop] at h; exact in_out_errEq h
  case Out => simp only [hop] at h; exact in_out_errEq h
  case Jred => simp only [hop] at h; exact jbus_jred_errEq h
  case Jmp => simp only [hop] at h; exact jmp_errEq h
  case JA => simp only [hop] at h; exact jmp_reg_6b_errEq h
  case J1 => simp only [hop] at h; exact jmp_reg_3b_errEq h
  case J2 => simp only [hop] at h; exact jmp_reg_3b_errEq h
  case J3 => simp only [hop] at h; exact jmp_reg_3b_errEq h
  case J4 => simp only [hop] at h; exact jmp_reg_3b_errEq h
  case J5 => simp only [hop] at h; exact jmp_reg_3b_errEq h
  case J6 => simp only [hop] at h; exact jmp_reg_3b_errEq h
  case JX => simp only [hop] at h; exact jmp_reg_6b_errEq h
  case ModifyA => simp only [hop] at h; exact modify_6b_errEq h
  case Modify1 => simp only [hop] at h; exact modify_3b_errEq h
  case Modify2 => simp only [hop] at h; exact modify_3b_errEq h
  case Modify3 => simp only [hop] at h; exact modify_3b_errEq h
  case Modify4 => simp only [hop] at h; exact modify_3b_errEq h
  case Modify5 => simp only [hop] at h; exact modify_3b_errEq h
  case Modify6 => simp only [hop] at h; exact modify_3b_errEq h
  case ModifyX => simp only [hop] at h; exact modify_6b_errEq h
  case CmpA => simp only [hop] at h; exact cmp_6b_errEq h
  case Cmp1 => simp only [hop] at h; exact cmp_3b_errEq h
  case Cmp2 => simp only [hop] at h; exact cmp_3b_errEq h
  case Cmp3 => simp only [hop] at h; exact cmp_3b_errEq h
  case Cmp4 => simp only [hop] at h; exact cmp_3b_errEq h
  case Cmp5 => simp only [hop] at h; exact cmp_3b_errEq h
  case Cmp6 => simp only [hop] at h; exact cmp_3b_errEq h
  case CmpX => simp only [hop] at h; exact cmp_6b_errEq h

/-- A successful dispatch preserves the sign byte of rJ and the
constant-zero slot 0 of the index register file. -/
theorem dispatch_okFrame (h : dispatch fm vm instr = .ok vm') :
    vm'.r_j.b0 = vm.r_j.b0 ∧ vm'.r_in 0 = vm.r_in 0 := by
  unfold dispatch at h
  rcases hop : instr.opcode
  case Nop => simp only [hop] at h; exact nop_okFrame h
  case Add => simp only [hop] at h; exact add_sub_okFrame h
  case Sub => simp only [hop] at h; exact add_sub_okFrame h
  case Mul => simp only [hop] at h; exact mul_okFrame h
  case Div => simp only [hop] at h; exact div_okFrame h
  case Special => simp only [hop] at h; exact special_okFrame h
  case Shift => simp only [hop] at h; exact shift_okFrame h
  case Move => simp only [hop] at h; exact move_okFrame h
  case LdA => simp only [hop] at h; exact load_6b_okFrame h
  case Ld1 => simp only [hop] at h; exact load_3b_okFrame h
  case Ld2 => simp only [hop] at h; exact load_3b_okFrame h
  case Ld3 => simp only [hop] at h; exact load_3b_okFrame h
  case Ld4 => simp only [hop] at h; exact load_3b_okFrame h
  case Ld5 => simp only [hop] at h; exact load_3b_okFrame h
  case Ld6 => simp only [hop] at h; exact load_3b_okFrame h
  case LdX => simp only [hop] at h; exact load_6b_okFrame h
  case LdAN => simp only [hop] at h; exact load_neg_6b_okFrame h
  case Ld1N => simp only [hop] at h; exact load_neg_3b_okFrame h
  case Ld2N => simp only [hop] at h; exact load_neg_3b_okFrame h
  case Ld3N => simp only [hop] at h; exact load_neg_3b_okFrame h
  case Ld4N => simp only [hop] at h; exact load_neg_3b_okFrame h
  case Ld5N => simp only [hop] at h; exact load_neg_3b_okFrame h
  case Ld6N => simp only [hop] at h; exact load_neg_3b_okFrame h
  case LdXN => simp only [hop] at h; exact load_neg_6b_okFrame h
  case StA => simp only [hop] at h; exact store_6b_okFrame h
  case St1 => simp only [hop] at h; exact store_3b_okFrame h
  case St2 => simp only [hop] at h; exact store_3b_okFrame h
  case St3 => simp only [hop] at h; exact store_3b_okFrame h
  case St4 => simp only [hop] at h; exact store_3b_okFrame h
  case St5 => simp only [hop] at h; exact store_3b_okFrame h
  case St6 => simp only [hop] at h; exact store_3b_okFrame h
  case StX => simp only [hop] at h; exact store_6b_okFrame h
  case StJ => simp only [hop] at h; exact store_j_okFrame h
  case StZ => simp only [hop] at h; exact store_zero_okFrame h
  case Jbus => simp only [hop] at h; exact jbus_jred_okFrame h
  case Ioc => simp only [hop] at h; exact ioc_okFrame h
  case In => simp only [hop] at h; exact in_out_okFrame h
  case Out => simp only [hop] at h; exact in_out_okFrame h
  case Jred => simp only [hop] at h; exact jbus_jred_okFrame h
  case Jmp => simp only [hop] at h; exact jmp_okFrame h
  case JA => simp only [hop] at h; exact jmp_reg_6b_okFrame h
  case J1 => simp only [hop] at h; exact jmp_reg_3b_okFrame h
  case J2 => simp only [hop] at h; exact jmp_reg_3b_okFrame h
  case J3 => simp only [hop] at h; exact jmp_reg_3b_okFrame h
  case J4 => simp only [hop] at h; exact jmp_reg_3b_okFrame h
  case J5 => simp only [hop] at h; exact jmp_reg_3b_okFrame h
  case J6 => simp only [hop] at h; exact jmp_reg_3b_okFrame h
  case JX => simp only [hop] at h; exact jmp_reg_6b_okFrame h
  case ModifyA => simp only [hop] at h; exact modify_6b_okFrame h
  case Modify1 => simp only [hop] at h; exact modify_3b_okFrame h
  case Modify2 => simp only [hop] at h; exact modify_3b_okFrame h
  case Modify3 => simp only [hop] at h; exact modify_3b_okFrame h
  case Modify4 => simp only [hop] at h; exact modify_3b_okFrame h
  case Modify5 => simp only [hop] at h; exact modify_3b_okFrame h
  case Modify6 => simp only [hop] at h; exact modify_3b_okFrame h
  case ModifyX => simp only [hop] at h; exact modify_6b_okFrame h
  case CmpA => simp only [hop] at h; exact cmp_6b_okFrame h
  case Cmp1 => simp only [hop] at h; exact cmp_3b_okFrame h
  case Cmp2 => simp only [hop] at h; exact cmp_3b_okFrame h
  case Cmp3 => simp only [hop] at h; exact cmp_3b_okFrame h
  case Cmp4 => simp only [hop] at h; exact cmp_3b_okFrame h
  case Cmp5 => simp only [hop] at h; exact cmp_3b_okFrame h
  case Cmp6 => simp only [hop] at h; exact cmp_3b_okFrame h
  case CmpX => simp only [hop] at h; exact cmp_6b_okFrame h

/-- A successful step preserves the sign byte of rJ and the
constant-zero slot 0 of the index register file. -/
theorem step_ok_frame (h : step fm vm = .ok vm') :
    vm'.r_j.b0 = vm.r_j.b0 ∧ vm'.r_in 0 = vm.r_in 0 := by
  unfold step at h
  split at h
  · exact HRes.noConfusion h
  split at h
  · split at h
    · exact HRes.noConfusion h
    · split at h
      · exact HRes.noConfusion h
      · exact HRes.noConfusion h
      · rename_i instr hdec vm1 hdisp
        injection h with h1
        subst h1
        have hf := dispatch_okFrame hdisp
        exact hf
  · exact HRes.noConfusion h

/-- An erroring step preserves the sign byte of rJ and the
constant-zero slot 0 of the index register file. -/
theorem step_err_frame (h : step fm vm = .err e vm') :
    vm'.r_j.b0 = vm.r_j.b0 ∧ vm'.r_in 0 = vm.r_in 0 := by
  unfold step at h
  split at h
  · injection h with h1 h2
    subst h2
    exact ⟨rfl, rfl⟩
  split at h
  · split at h
    · injection h with h1 h2
      subst h2
      exact ⟨rfl, rfl⟩
    · split at h
      · exact HRes.noConfusion h
      · rename_i instr hdec vm1 e1 hdisp
        injection h with h1 h2
        subst h2
        have h3 := dispatch_errEq hdisp
        subst h3
        exact ⟨rfl, rfl⟩
      · exact HRes.noConfusion h
  · exact HRes.noConfusion h

end DispatchLemmas

end MixVM

namespace MixVM

/-- A one-instruction machine configuration: the given word at address
0, zeroes elsewhere, machine running.  Used for concrete witnesses. -/
def constMem (w : FullWord) : Nat → FullWord :=
  fun a => if a = 0 then w else FullWord.new

/-- A running machine whose memory holds the given word at address 0. -/
def runVM (w : FullWord) : VM :=
  { VM.new with halted := false, mem := constMem w }

/-- C9: in every VM state reachable from VM::new() by reset, restart,
device installation and (successful or erroring) step calls, the sign
byte of rJ is 0 (rJ is always positive) and the register slot rI[0] is
the all-zero word. -/
theorem mix_C9_rj_positive_ri0_zero (fm : F32Model) (vm : VM)
    (h : Reachable fm vm) :
    vm.r_j.b0 = 0 ∧ vm.r_in 0 = HalfWord.new := by
  induction h with
  | new => exact ⟨rfl, rfl⟩
  | reset _ => exact ⟨rfl, rfl⟩
  | restart _ ih => exact ih
  | install i d _ ih => exact ih
  | stepOk _ hs ih =>
    have hf := step_ok_frame hs
    exact ⟨hf.1.trans ih.1, hf.2.trans ih.2⟩
  | stepErr _ hs ih =>
    have hf := step_err_frame hs
    exact ⟨hf.1.trans ih.1, hf.2.trans ih.2⟩

/-- Witness for C9: the invariant holds of a concretely reached state,
here the state after restarting the fresh machine and stepping it once
(address 0 holds the all-zero word, which decodes to NOP 0). -/
theorem mix_C9_witness :
    ∃ vm1, step trivF32 VM.new.restart = .ok vm1 ∧
      vm1.r_j.b0 = 0 ∧ vm1.r_in 0 = HalfWord.new := by
  refine ⟨_, rfl, ?_⟩
  exact mix_C9_rj_positive_ri0_zero trivF32 _
    (Reachable.stepOk (Reachable.restart Reachable.new) rfl)

/-- C10: a step of a non-halted machine that fetches a word whose
opcode byte is invalid halts and returns IllegalInstruction with the
pc still at the faulting word; every other error surfaced by a
non-halted step leaves the pc advanced one past the faulting
instruction (and the machine halted). -/
theorem mix_C10_pc_on_error (fm : F32Model) (vm : VM)
    (h1 : vm.halted = false) (h2 : vm.pc < memSize) :
    (decode (vm.mem vm.pc) = none →
       step fm vm = .err .IllegalInstruction vm.halt ∧
       vm.halt.pc = vm.pc ∧ vm.halt.halted = true)
    ∧ (∀ e vm', step fm vm = .err e vm' → e ≠ .IllegalInstruction →
         vm'.pc = vm.pc + 1 ∧ vm'.halted = true) := by
  constructor
  · intro hdec
    refine ⟨?_, rfl, rfl⟩
    unfold step
    rw [h1]
    simp only [Bool.false_eq_true, if_false, if_pos h2, hdec]
  · intro e vm' hs hne
    unfold step at hs
    rw [h1] at hs
    simp only [Bool.false_eq_true, if_false, if_pos h2] at hs
    cases hdec : decode (vm.mem vm.pc) with
    | none =>
      simp only [hdec] at hs
      injection hs with he hv
      exact absurd he.symm hne
    | some instr =>
      simp only [hdec] at hs
      split at hs
      · exact HRes.noConfusion hs
      · rename_i e1 vm1 hd
        injection hs with he hv
        have h3 := dispatch_errEq hd
        subst h3
        rw [← hv]
        exact ⟨rfl, rfl⟩
      · exact HRes.noConfusion hs

/-- Witness for C10: a word with opcode byte 64 is not decodable; the
step surfaces IllegalInstruction, halted, with the pc unmoved. -/
theorem mix_C10_witness :
    step trivF32 (runVM ⟨0, 0, 0, 0, 0, 64⟩) =
      .err .IllegalInstruction (runVM ⟨0, 0, 0, 0, 0, 64⟩).halt ∧
    (runVM ⟨0, 0, 0, 0, 0, 64⟩).halt.pc = (runVM ⟨0, 0, 0, 0, 0, 64⟩).pc ∧
    (runVM ⟨0, 0, 0, 0, 0, 64⟩).halt.halted = true :=
  (mix_C10_pc_on_error trivF32 (runVM ⟨0, 0, 0, 0, 0, 64⟩) rfl
    (by decide)).1 rfl

end MixVM

namespace MixVM

/-- C7: for every 64-bit signed integer n, if the absolute value fits
in five bytes then from_i64 reports no overflow and to_i64 of the
produced word returns (n, false); if the absolute value needs more
than five bytes then from_i64 reports overflow. -/
theorem mix_C7_from_i64_roundtrip (n : Int)
    (h : -(2 ^ 63) ≤ n ∧ n < 2 ^ 63) :
    (n.natAbs < 2 ^ 40 →
       (FullWord.from_i64 n).2 = false ∧
       (FullWord.from_i64 n).1.to_i64 = (n, false)) ∧
    (2 ^ 40 ≤ n.natAbs → (FullWord.from_i64 n).2 = true) := by
  have ha : n.natAbs % 2 ^ 64 = n.natAbs := Nat.mod_eq_of_lt (by omega)
  constructor
  · intro hlt
    constructor
    · simp only [FullWord.from_i64, ha, decide_eq_false_iff_not]
      omega
    · have hmag : ((FullWord.from_i64 n).1).mag = n.natAbs := by
        simp only [FullWord.from_i64, FullWord.mag, ha, byteOf]
        omega
      have hb0 : ((FullWord.from_i64 n).1).b0 = if n < 0 then 1 else 0 := by
        simp [FullWord.from_i64]
      unfold FullWord.to_i64 FullWord.get_sign
      rw [hb0, hmag]
      by_cases hn : n < 0
      · simp only [hn, if_true, Prod.mk.injEq]
        refine ⟨?_, trivial⟩
        simp only [one_ne_zero, if_false]
        omega
      · simp only [hn, if_false, Prod.mk.injEq]
        refine ⟨?_, trivial⟩
        simp only [if_true]
        omega
  · intro hge
    simp only [FullWord.from_i64, ha, decide_eq_true_eq]
    omega

/-- Witness for C7: the round trip at the concrete value -1234, and
the overflow report at 2^41. -/
theorem mix_C7_witness :
    ((FullWord.from_i64 (-1234)).2 = false ∧
     (FullWord.from_i64 (-1234)).1.to_i64 = (-1234, false)) ∧
    (FullWord.from_i64 (2 ^ 41)).2 = true :=
  ⟨(mix_C7_from_i64_roundtrip (-1234) (by decide)).1 (by decide),
   (mix_C7_from_i64_roundtrip (2 ^ 41) (by decide)).2 (by decide)⟩

end MixVM

namespace MixVM

/-- The magnitude written by from_i64 for a small non-negative value
is the value itself. -/
theorem from_i64_mag_small (v : Int) (h0 : 0 ≤ v) (h1 : v < 2 ^ 40) :
    ((FullWord.from_i64 v).1).mag = v.toNat := by
  simp only [FullWord.from_i64, FullWord.mag, byteOf]
  omega

/-- The NUM accumulator is non-negative and below 10^10 (ten digits,
each reduced modulo 10), hence it always fits in five magnitude
bytes. -/
theorem numAcc_nonneg_lt (ra rx : FullWord) :
    0 ≤ numAcc ra rx ∧ numAcc ra rx < 10 ^ 10 := by
  simp only [numAcc, List.foldl]
  omega

/-- C4: executing NUM (Special, field 0) stores into the five
magnitude bytes of rA the repack of the accumulator acc given by
acc * 10 + byte mod 10 over the ten magnitude bytes of rA then rX,
leaves the sign byte of rA untouched, and leaves the overflow toggle
unchanged: the accumulator is below 2^40, so the repack never loses
bits, and the toggle is set exactly when it does (never). -/
theorem mix_C4_num_semantics (fm : F32Model) (vm : VM) (instr : Instruction)
    (h1 : vm.halted = false) (h2 : vm.pc < memSize)
    (h3 : decode (vm.mem vm.pc) = some instr)
    (hop : instr.opcode = .Special) (hf : instr.field = 0) :
    ∃ vm', step fm vm = .ok vm' ∧
      vm'.r_a.b0 = vm.r_a.b0 ∧
      (vm'.r_a.mag : Int) = numAcc vm.r_a vm.r_x ∧
      numAcc vm.r_a vm.r_x < 2 ^ 40 ∧
      vm'.overflow = vm.overflow ∧
      vm'.r_x = vm.r_x ∧
      vm'.pc = vm.pc + 1 := by
  have hb := numAcc_nonneg_lt vm.r_a vm.r_x
  rw [step_eq_dispatch fm vm instr h1 h2 h3]
  simp only [dispatch, hop]
  unfold handle_instr_special
  simp only [hf]
  refine ⟨_, rfl, rfl, ?_, by omega, rfl, rfl, rfl⟩
  have hmag := from_i64_mag_small (numAcc vm.r_a vm.r_x) hb.1 (by omega)
  calc ((((FullWord.from_i64 (numAcc vm.r_a vm.r_x)).1).mag : Int))
      = ((numAcc vm.r_a vm.r_x).toNat : Int) := by rw [hmag]
    _ = numAcc vm.r_a vm.r_x := Int.toNat_of_nonneg hb.1

/-- A concrete machine about to execute NUM with rA = +[0,0,0,1,2] and
rX = -[0,0,0,3,4]. -/
def numVM : VM :=
  { runVM ⟨0, 0, 0, 0, 0, 5⟩ with
    r_a := ⟨0, 0, 0, 0, 1, 2⟩, r_x := ⟨1, 0, 0, 0, 3, 4⟩ }

/-- Witness for C4 at a concrete machine. -/
theorem mix_C4_witness :
    ∃ vm', step trivF32 numVM = .ok vm' ∧
      vm'.r_a.b0 = numVM.r_a.b0 ∧
      (vm'.r_a.mag : Int) = numAcc numVM.r_a numVM.r_x ∧
      numAcc numVM.r_a numVM.r_x < 2 ^ 40 ∧
      vm'.overflow = numVM.overflow ∧
      vm'.r_x = numVM.r_x ∧
      vm'.pc = numVM.pc + 1 :=
  mix_C4_num_semantics trivF32 numVM ⟨0, 0, 0, Opcode.Special⟩ rfl
    (by decide) rfl rfl rfl

end MixVM

namespace MixVM

/-- Conversion of zero produces the canonical positive zero word with
no overflow. -/
theorem from_i64_zero : FullWord.from_i64 0 = (FullWord.new, false) := by
  simp [FullWord.from_i64, FullWord.new, byteOf]

/-- C5: executing integer DIV (field other than 7) with a zero divisor
read from memory sets the overflow toggle, zeroes the magnitudes of rA
and rX, mutates no memory cell, and the step succeeds (no panic, no
error). -/
theorem mix_C5_div_by_zero (fm : F32Model) (vm : VM) (instr : Instruction)
    (M : Nat) (ovb : Bool)
    (h1 : vm.halted = false) (h2 : vm.pc < memSize)
    (h3 : decode (vm.mem vm.pc) = some instr)
    (hop : instr.opcode = .Div) (hf : ¬instr.field = 7)
    (heff : helper_get_eff_addr vm instr.addr instr.index = .ok M)
    (hM : M < memSize)
    (hV : (vm.mem M).to_i64_ranged (fieldRange instr.field).1
            (fieldRange instr.field).2 = some (0, ovb)) :
    ∃ vm', step fm vm = .ok vm' ∧
      vm'.overflow = true ∧
      vm'.r_a.mag = 0 ∧ vm'.r_x.mag = 0 ∧
      vm'.mem = vm.mem ∧ vm'.pc = vm.pc + 1 := by
  rw [step_eq_dispatch fm vm instr h1 h2 h3]
  simp only [dispatch, hop]
  unfold handle_instr_div
  simp only [helper_eff_addr_pc, heff, memRead_small _ hM, if_neg hf, hV,
    checked_div_i128, checked_rem_i128, from_i64_zero, Int.natAbs_zero,
    Nat.cast_zero]
  norm_num
  constructor <;> simp [FullWord.mag, from_i64_zero, FullWord.new]

/-- A concrete machine about to divide rAX = +7 by the zero word at
address 100. -/
def divVM : VM :=
  { runVM ⟨0, 0, 100, 0, 5, 4⟩ with r_a := ⟨0, 0, 0, 0, 0, 7⟩ }

/-- Witness for C5 at a concrete machine. -/
theorem mix_C5_witness :
    ∃ vm', step trivF32 divVM = .ok vm' ∧
      vm'.overflow = true ∧
      vm'.r_a.mag = 0 ∧ vm'.r_x.mag = 0 ∧
      vm'.mem = divVM.mem ∧ vm'.pc = divVM.pc + 1 :=
  mix_C5_div_by_zero trivF32 divVM ⟨100, 5, 0, Opcode.Div⟩ 100 false rfl
    (by decide) rfl rfl (by decide) rfl (by decide) rfl

end MixVM

namespace MixVM

/-- A jump always lands the pc on the target. -/
theorem do_jump_pc (vm : VM) (loc : Nat) (s : Bool) :
    (helper_do_jump vm loc s).pc = loc := by
  unfold helper_do_jump; split <;> rfl

/-- A saving jump writes the big-endian bytes of the current pc into
the magnitude of rJ. -/
theorem do_jump_rj_save (vm : VM) (loc : Nat) :
    (helper_do_jump vm loc true).r_j =
      ⟨vm.r_j.b0, byteOf vm.pc 1, byteOf vm.pc 0⟩ := rfl

/-- A non-saving jump leaves rJ alone. -/
theorem do_jump_rj_nosave (vm : VM) (loc : Nat) :
    (helper_do_jump vm loc false).r_j = vm.r_j := rfl

/-- C6: a taken jump through the JMP opcode with a field other than 1
stores the post-increment pc (the address of the instruction that
would have executed next) into the magnitude of rJ and sets the pc to
the jump target; a taken JSJ (field 1) changes the pc but leaves rJ
unchanged. -/
theorem mix_C6_jmp_saves_pc (fm : F32Model) (vm : VM) (instr : Instruction)
    (target : Nat)
    (h1 : vm.halted = false) (h2 : vm.pc < memSize)
    (h3 : decode (vm.mem vm.pc) = some instr)
    (hop : instr.opcode = .Jmp)
    (heff : helper_get_eff_addr vm instr.addr instr.index = .ok target)
    (hsj : jmpCond vm instr.field = some true) :
    ∃ vm', step fm vm = .ok vm' ∧ vm'.pc = target ∧
      (¬instr.field = 1 →
        vm'.r_j.mag = vm.pc + 1 ∧ vm'.r_j.b0 = vm.r_j.b0) ∧
      (instr.field = 1 → vm'.r_j = vm.r_j) := by
  rw [step_eq_dispatch fm vm instr h1 h2 h3]
  simp only [dispatch, hop]
  unfold handle_instr_jmp
  have hc : jmpCond { vm with pc := vm.pc + 1 } instr.field =
      jmpCond vm instr.field := rfl
  simp only [helper_eff_addr_pc, heff, hc, hsj, if_true]
  refine ⟨_, rfl, do_jump_pc _ _ _, ?_, ?_⟩
  · intro hne
    rw [show (decide ¬instr.field = 1) = true by simp [hne]]
    rw [do_jump_rj_save]
    constructor
    · show byteOf (if instr.field = 2 ∨ instr.field = 3 then _ else _ : VM).pc
        1 * 256 + byteOf _ 0 = vm.pc + 1
      split <;>
        · show byteOf (vm.pc + 1) 1 * 256 + byteOf (vm.pc + 1) 0 = vm.pc + 1
          simp only [byteOf, memSize] at h2 ⊢
          omega
    · split <;> rfl
  · intro he1
    rw [show (decide ¬instr.field = 1) = false by simp [he1]]
    rw [do_jump_rj_nosave]
    simp [he1]

/-- A concrete machine at pc = 10 about to execute JMP 50. -/
def jmpVM : VM :=
  { VM.new with
    halted := false
    pc := 10
    mem := fun a => if a = 10 then ⟨0, 0, 50, 0, 0, 39⟩ else FullWord.new }

/-- Witness for C6 at a concrete machine: after JMP 50 at pc 10 the pc
is 50 and rJ holds 11. -/
theorem mix_C6_witness :
    ∃ vm', step trivF32 jmpVM = .ok vm' ∧ vm'.pc = 50 ∧
      (¬(0 : Nat) = 1 →
        vm'.r_j.mag = jmpVM.pc + 1 ∧ vm'.r_j.b0 = jmpVM.r_j.b0) ∧
      ((0 : Nat) = 1 → vm'.r_j = jmpVM.r_j) :=
  mix_C6_jmp_saves_pc trivF32 jmpVM ⟨50, 0, 0, Opcode.Jmp⟩ 50 rfl
    (by decide) rfl rfl rfl rfl

end MixVM

namespace MixVM

/-- Recomposition of the five low bytes of a natural number: packing
them big-endian yields the value modulo 2^40. -/
theorem bytes_recompose (a : Nat) :
    (((byteOf a 4 * 256 + byteOf a 3) * 256 + byteOf a 2) * 256
      + byteOf a 1) * 256 + byteOf a 0 = a % 2 ^ 40 := by
  simp only [byteOf]
  omega

/-- A concrete machine about to execute SRA 1 with rA = -1: the code
produces magnitude 2^40 - 1 where the claim predicts 1 >> 8 = 0. -/
def sraVM : VM :=
  { runVM ⟨0, 0, 1, 0, 1, 6⟩ with r_a := ⟨1, 0, 0, 0, 0, 1⟩ }

/-- Counterexample for C3: executing SRA with shift count 1 on the
negative register rA = -1 does not shift the five magnitude bytes
viewed as a 64-bit unsigned value (that would give 0); it shifts the
two's-complement pattern of to_i64(rA) and stores magnitude 2^40-1. -/
theorem mix_C3_counterexample :
    ∃ vm', step trivF32 sraVM = .ok vm' ∧
      vm'.r_a.mag = 2 ^ 40 - 1 ∧
      ¬ vm'.r_a.mag = sraVM.r_a.mag / 2 ^ (1 * 8) :=
  ⟨_, rfl, by decide, by decide⟩

/-- C3 as amended: for rA with a positive sign byte, SLA (field 0)
multiplies the 5 magnitude bytes viewed as a 64-bit unsigned value by
2^(M*8) (wrapping at 2^64) and SRA (field 1) divides by 2^(M*8); the
low five bytes of the result are stored back and the sign byte is
unchanged.  (For negative rA the code instead shifts the 64-bit
two's-complement pattern of to_i64(rA).) -/
theorem mix_C3_amended (fm : F32Model) (vm : VM) (instr : Instruction)
    (M : Nat)
    (h1 : vm.halted = false) (h2 : vm.pc < memSize)
    (h3 : decode (vm.mem vm.pc) = some instr)
    (hop : instr.opcode = .Shift)
    (hf : instr.field = 0 ∨ instr.field = 1)
    (heff : helper_get_eff_addr vm instr.addr instr.index = .ok M)
    (hM : M ≤ 7)
    (hsign : vm.r_a.b0 = 0)
    (hb : vm.r_a.b1 < 256 ∧ vm.r_a.b2 < 256 ∧ vm.r_a.b3 < 256 ∧
          vm.r_a.b4 < 256 ∧ vm.r_a.b5 < 256) :
    ∃ vm', step fm vm = .ok vm' ∧
      vm'.r_a.b0 = vm.r_a.b0 ∧
      vm'.r_a.mag =
        (if instr.field = 0 then vm.r_a.mag * 2 ^ (M * 8) % 2 ^ 64
         else vm.r_a.mag / 2 ^ (M * 8)) % 2 ^ 40 ∧
      vm'.r_x = vm.r_x ∧ vm'.pc = vm.pc + 1 := by
  have hmag40 : vm.r_a.mag < 2 ^ 40 := by
    simp only [FullWord.mag]; omega
  have horig : ((vm.r_a.to_i64.1) % 2 ^ 64).toNat = vm.r_a.mag := by
    simp only [FullWord.to_i64, FullWord.get_sign, hsign, if_pos, one_mul]
    omega
  have hshift : M * 8 % 64 = M * 8 := Nat.mod_eq_of_lt (by omega)
  rw [step_eq_dispatch fm vm instr h1 h2 h3]
  simp only [dispatch, hop]
  unfold handle_instr_shift
  simp only [helper_eff_addr_pc, heff, if_pos hf]
  rcases hf with hf | hf
  · simp only [hf, reduceIte]
    refine ⟨_, rfl, rfl, ?_, rfl, rfl⟩
    simp only [FullWord.mag, bytes_recompose, horig, hshift]
  · simp only [hf, reduceIte]
    refine ⟨_, rfl, rfl, ?_, rfl, rfl⟩
    simp only [FullWord.mag, bytes_recompose, horig, hshift]

/-- A concrete machine about to execute SRA 1 with a positive rA. -/
def sraPosVM : VM :=
  { runVM ⟨0, 0, 1, 0, 1, 6⟩ with r_a := ⟨0, 1, 2, 3, 4, 5⟩ }

/-- Witness for the amended C3 at a concrete machine. -/
theorem mix_C3_witness :
    ∃ vm', step trivF32 sraPosVM = .ok vm' ∧
      vm'.r_a.b0 = sraPosVM.r_a.b0 ∧
      vm'.r_a.mag =
        (if (1 : Nat) = 0 then sraPosVM.r_a.mag * 2 ^ (1 * 8) % 2 ^ 64
         else sraPosVM.r_a.mag / 2 ^ (1 * 8)) % 2 ^ 40 ∧
      vm'.r_x = sraPosVM.r_x ∧ vm'.pc = sraPosVM.pc + 1 :=
  mix_C3_amended trivF32 sraPosVM ⟨1, 1, 0, Opcode.Shift⟩ 1 rfl (by decide)
    rfl rfl (Or.inr rfl) rfl (by decide) rfl (by decide)

end MixVM

namespace MixVM

set_option maxHeartbeats 3000000 in
/-- The byte-copy loops of load and store are mutually inverse on a
memory cell: loading a field into a zeroed register and storing the
same field back reproduces the cell, for every field L..=R with
L ≤ R ≤ 5 (enumerated over all 21 such fields). -/
theorem copy_roundtrip (L R : Nat) (hLR : L ≤ R) (hR : R ≤ 5)
    (cell : FullWord) :
    ∃ reg1 cell1,
      copyFieldIn FullWord.new cell (if L = 0 then 1 else L) R = some reg1 ∧
      copyFieldOut cell (if L = 0 then { reg1 with b0 := cell.b0 } else reg1)
        (if L = 0 then 1 else L) R = some cell1 ∧
      (if L = 0 then
        { cell1 with b0 :=
          (if L = 0 then { reg1 with b0 := cell.b0 } else reg1).b0 }
       else cell1) = cell := by
  have hL5 : L ≤ 5 := le_trans hLR hR
  interval_cases L <;> interval_cases R <;>
    (simp only [copyFieldIn, copyFieldOut, copyPairs, List.range',
       FullWord.setByte, FullWord.getByte, FullWord.new, List.reverse_cons,
       List.reverse_nil, List.nil_append, List.cons_append, List.zip_cons_cons,
       List.zip_nil_right, List.zip_nil_left, List.foldl_cons, List.foldl_nil,
       reduceIte]
     exact ⟨_, _, rfl, rfl, rfl⟩)

/-- C8: executing LDA with field 8L+R (L ≤ R ≤ 5) at an in-range
address and then STA with the same field at the same address leaves
the whole memory unchanged: the field bytes of the cell are restored
to their original values and every byte outside the field (including
the sign byte when L > 0) is untouched. -/
theorem mix_C8_lda_sta_identity (vm : VM) (A : Int) (I : Nat)
    (L R addr : Nat) (hLR : L ≤ R) (hR : R ≤ 5)
    (heff : helper_get_eff_addr vm A I = .ok addr)
    (haddr : addr < memSize) :
    ∃ vm1 vm2,
      handle_instr_load_6b vm ⟨A, 8 * L + R, I, .LdA⟩ = .ok vm1 ∧
      handle_instr_store_6b vm1 ⟨A, 8 * L + R, I, .StA⟩ = .ok vm2 ∧
      vm2.mem = vm.mem := by
  obtain ⟨reg1, cell1, hin, hout, hfin⟩ :=
    copy_roundtrip L R hLR hR (vm.mem addr)
  have hf : fieldRangeSignless (8 * L + R) =
      ((if L = 0 then 1 else L, R), decide (L = 0)) := by
    unfold fieldRangeSignless fieldRange
    have h1 : (8 * L + R) / 8 = L := by omega
    have h2 : (8 * L + R) % 8 = R := by omega
    simp only [h1, h2]
    by_cases hL0 : L = 0 <;> simp [hL0]
  have hload : handle_instr_load_6b vm ⟨A, 8 * L + R, I, .LdA⟩ =
      .ok { vm with r_a :=
        if L = 0 then { reg1 with b0 := (vm.mem addr).b0 } else reg1 } := by
    unfold handle_instr_load_6b
    simp only [hf, heff, memRead_small _ haddr, hin, decide_eq_true_eq]
  have hstore : handle_instr_store_6b
      { vm with r_a :=
        if L = 0 then { reg1 with b0 := (vm.mem addr).b0 } else reg1 }
      ⟨A, 8 * L + R, I, .StA⟩ =
      .ok { vm with
        r_a := if L = 0 then { reg1 with b0 := (vm.mem addr).b0 } else reg1
        mem := Function.update vm.mem addr (vm.mem addr) } := by
    unfold handle_instr_store_6b
    rw [show helper_get_eff_addr
      { vm with r_a :=
        if L = 0 then { reg1 with b0 := (vm.mem addr).b0 } else reg1 } A I =
      .ok addr from heff]
    simp only [hf, decide_eq_true_eq, memRead_small _ haddr]
    simp only [hout, hfin]
  refine ⟨_, _, hload, hstore, ?_⟩
  exact Function.update_eq_self addr vm.mem

/-- A concrete machine whose cell 5 holds a negative word, used to
witness the LDA/STA round trip with field 2:3. -/
def ldaStaVM : VM :=
  { VM.new with
    mem := fun a => if a = 5 then ⟨1, 9, 8, 7, 6, 5⟩ else FullWord.new }

/-- Witness for C8 at a concrete machine and field 2:3. -/
theorem mix_C8_witness :
    ∃ vm1 vm2,
      handle_instr_load_6b ldaStaVM ⟨5, 8 * 2 + 3, 0, .LdA⟩ = .ok vm1 ∧
      handle_instr_store_6b vm1 ⟨5, 8 * 2 + 3, 0, .StA⟩ = .ok vm2 ∧
      vm2.mem = ldaStaVM.mem :=
  mix_C8_lda_sta_identity ldaStaVM 5 0 2 3 5 (by decide) (by decide) rfl
    (by decide)

end MixVM

namespace MixVM

/-- The opcodes of the memory-touching families named by the spec:
loads, stores, integer arithmetic and compares (the bitwise and I/O
opcodes are treated separately since they share opcodes with non-memory
operations). -/
def memOps : List Opcode :=
  [.Add, .Sub, .Mul, .Div,
   .LdA, .Ld1, .Ld2, .Ld3, .Ld4, .Ld5, .Ld6, .LdX,
   .LdAN, .Ld1N, .Ld2N, .Ld3N, .Ld4N, .Ld5N, .Ld6N, .LdXN,
   .StA, .St1, .St2, .St3, .St4, .St5, .St6, .StX, .StJ, .StZ,
   .CmpA, .Cmp1, .Cmp2, .Cmp3, .Cmp4, .Cmp5, .Cmp6, .CmpX]

/-- The opcodes whose handlers compute their effective address through
the checked helper before doing anything else. -/
def checkedEffOps : List Opcode :=
  [.Add, .Sub, .Mul, .Div,
   .LdA, .Ld1, .Ld2, .Ld3, .Ld4, .Ld5, .Ld6, .LdX,
   .LdAN, .Ld1N, .Ld2N, .Ld3N, .Ld4N, .Ld5N, .Ld6N, .LdXN,
   .StA, .St1, .St2, .St3, .St4, .St5, .St6, .StX, .StJ, .StZ,
   .CmpA, .Cmp1, .Cmp2, .Cmp3, .Cmp4, .Cmp5, .Cmp6, .CmpX,
   .Shift, .Move, .In, .Out, .Jmp,
   .JA, .J1, .J2, .J3, .J4, .J5, .J6, .JX, .ModifyA, .ModifyX]

/-- A step whose dispatcher errors surfaces the error with the machine
halted. -/
theorem step_err_of_dispatch {fm : F32Model} {vm : VM} (vmx : VM)
    {instr : Instruction} {e : ErrorCode}
    (h1 : vm.halted = false) (h2 : vm.pc < memSize)
    (h3 : decode (vm.mem vm.pc) = some instr)
    (hd : dispatch fm { vm with pc := vm.pc + 1 } instr = .err e vmx) :
    step fm vm = .err e vmx.halt := by
  rw [step_eq_dispatch fm vm instr h1 h2 h3]
  simp only [hd]

/-- A step whose dispatcher panics panics. -/
theorem step_panic_of_dispatch {fm : F32Model} {vm : VM}
    {instr : Instruction}
    (h1 : vm.halted = false) (h2 : vm.pc < memSize)
    (h3 : decode (vm.mem vm.pc) = some instr)
    (hd : dispatch fm { vm with pc := vm.pc + 1 } instr = .panic) :
    step fm vm = .panic := by
  rw [step_eq_dispatch fm vm instr h1 h2 h3]
  simp only [hd]

/-- Counterexample for C2: INC1 (Modify1) with index part 7 panics on
the out-of-bounds register-file access instead of returning the
InvalidIndex error. -/
theorem mix_C2_counterexample :
    step trivF32 (runVM ⟨0, 0, 1, 7, 0, 49⟩) = .panic ∧
    ∀ vm', ¬ step trivF32 (runVM ⟨0, 0, 1, 7, 0, 49⟩) =
      .err .InvalidIndex vm' := by
  constructor
  · rfl
  · intro vm' h
    rw [show step trivF32 (runVM ⟨0, 0, 1, 7, 0, 49⟩) = .panic from rfl] at h
    exact HRes.noConfusion h

/-- C2 as amended: with an index part outside 0..=6, every instruction
whose handler uses the checked effective-address computation (loads,
stores, arithmetic, compares, shifts, MOVE, jumps, the rA/rX modify
family, IN/OUT, and the bitwise AND/OR/XOR sub-opcodes of Special)
surfaces InvalidIndex and halts with the pc advanced; the INC1-6 /
DEC1-6 / ENT1-6 / ENN1-6 family and IOC instead use the unchecked
helper and panic on the out-of-bounds register-file access. -/
theorem mix_C2_amended (fm : F32Model) (vm : VM) (instr : Instruction)
    (h1 : vm.halted = false) (h2 : vm.pc < memSize)
    (h3 : decode (vm.mem vm.pc) = some instr)
    (hidx : 7 ≤ instr.index) :
    ((instr.opcode ∈ checkedEffOps ∨
        (instr.opcode = .Special ∧
          (instr.field = 10 ∨ instr.field = 11 ∨ instr.field = 12))) →
      step fm vm = .err .InvalidIndex
        { vm with pc := vm.pc + 1, halted := true })
    ∧ ((instr.opcode ∈ ([.Modify1, .Modify2, .Modify3, .Modify4, .Modify5,
          .Modify6, .Ioc] : List Opcode)) →
      step fm vm = .panic) := by
  have herr : helper_get_eff_addr vm instr.addr instr.index =
      .error .InvalidIndex := helper_eff_addr_invalid_index vm instr.addr hidx
  have hunc : helper_get_eff_addr_unchecked vm instr.addr instr.index =
      none := helper_eff_addr_unchecked_panic vm instr.addr hidx
  constructor
  · intro hop
    refine step_err_of_dispatch { vm with pc := vm.pc + 1 } h1 h2 h3 ?_
    rcases hop with hmem | ⟨hsp, hf⟩
    · simp only [checkedEffOps, List.mem_cons, List.not_mem_nil,
        or_false] at hmem
      rcases hmem with h | h | h | h | h | h | h | h | h | h | h | h | h | h | h | h | h | h | h | h | h | h | h | h | h | h | h | h | h | h | h | h | h | h | h | h | h | h | h | h | h | h | h | h | h | h | h | h | h | h | h | h | h
      · simp only [dispatch, h]; exact add_sub_helperErr herr
      · simp only [dispatch, h]; exact add_sub_helperErr herr
      · simp only [dispatch, h]; exact mul_helperErr herr
      · simp only [dispatch, h]; exact div_helperErr herr
      · simp only [dispatch, h]; exact load_6b_helperErr herr
      · simp only [dispatch, h]; exact load_3b_helperErr herr
      · simp only [dispatch, h]; exact load_3b_helperErr herr
      · simp only [dispatch, h]; exact load_3b_helperErr herr
      · simp only [dispatch, h]; exact load_3b_helperErr herr
      · simp only [dispatch, h]; exact load_3b_helperErr herr
      · simp only [dispatch, h]; exact load_3b_helperErr herr
      · simp only [dispatch, h]; exact load_6b_helperErr herr
      · simp only [dispatch, h]; exact load_neg_6b_helperErr herr
      · simp only [dispatch, h]; exact load_neg_3b_helperErr herr
      · simp only [dispatch, h]; exact load_neg_3b_helperErr herr
      · simp only [dispatch, h]; exact load_neg_3b_helperErr herr
      · simp only [dispatch, h]; exact load_neg_3b_helperErr herr
      · simp only [dispatch, h]; exact load_neg_3b_helperErr herr
      · simp only [dispatch, h]; exact load_neg_3b_helperErr herr
      · simp only [dispatch, h]; exact load_neg_6b_helperErr herr
      · simp only [dispatch, h]; exact store_6b_helperErr herr
      · simp only [dispatch, h]; exact store_3b_helperErr herr
      · simp only [dispatch, h]; exact store_3b_helperErr herr
      · simp only [dispatch, h]; exact store_3b_helperErr herr
      · simp only [dispatch, h]; exact store_3b_helperErr herr
      · simp only [dispatch, h]; exact store_3b_helperErr herr
      · simp only [dispatch, h]; exact store_3b_helperErr herr
      · simp only [dispatch, h]; exact store_6b_helperErr herr
      · simp only [dispatch, h]; exact store_j_helperErr herr
      · simp only [dispatch, h]; exact store_zero_helperErr herr
      · simp only [dispatch, h]; exact cmp_6b_helperErr herr
      · simp only [dispatch, h]; exact cmp_3b_helperErr herr
      · simp only [dispatch, h]; exact cmp_3b_helperErr herr
      · simp only [dispatch, h]; exact cmp_3b_helperErr herr
      · simp only [dispatch, h]; exact cmp_3b_helperErr herr
      · simp only [dispatch, h]; exact cmp_3b_helperErr herr
      · simp only [dispatch, h]; exact cmp_3b_helperErr herr
      · simp only [dispatch, h]; exact cmp_6b_helperErr herr
      · simp only [dispatch, h]; exact shift_helperErr herr
      · simp only [dispatch, h]; exact move_helperErr herr
      · simp only [dispatch, h]; exact in_out_helperErr herr
      · simp only [dispatch, h]; exact in_out_helperErr herr
      · simp only [dispatch, h]; exact jmp_helperErr herr
      · simp only [dispatch, h]; exact jmp_reg_6b_helperErr herr
      · simp only [dispatch, h]; exact jmp_reg_3b_helperErr herr
      · simp only [dispatch, h]; exact jmp_reg_3b_helperErr herr
      · simp only [dispatch, h]; exact jmp_reg_3b_helperErr herr
      · simp only [dispatch, h]; exact jmp_reg_3b_helperErr herr
      · simp only [dispatch, h]; exact jmp_reg_3b_helperErr herr
      · simp only [dispatch, h]; exact jmp_reg_3b_helperErr herr
      · simp only [dispatch, h]; exact jmp_reg_6b_helperErr herr
      · simp only [dispatch, h]; exact modify_6b_helperErr herr
      · simp only [dispatch, h]; exact modify_6b_helperErr herr
    · simp only [dispatch, hsp]
      exact special_bitwise_helperErr hf herr
  · intro hmem
    refine step_panic_of_dispatch h1 h2 h3 ?_
    simp only [List.mem_cons, List.not_mem_nil, or_false] at hmem
    rcases hmem with h | h | h | h | h | h | h
    · simp only [dispatch, h]; exact modify_3b_uncheckedPanic hunc
    · simp only [dispatch, h]; exact modify_3b_uncheckedPanic hunc
    · simp only [dispatch, h]; exact modify_3b_uncheckedPanic hunc
    · simp only [dispatch, h]; exact modify_3b_uncheckedPanic hunc
    · simp only [dispatch, h]; exact modify_3b_uncheckedPanic hunc
    · simp only [dispatch, h]; exact modify_3b_uncheckedPanic hunc
    · simp only [dispatch, h]; exact ioc_uncheckedPanic hunc

/-- Witness for the amended C2: LDA with index part 7 surfaces
InvalidIndex with the machine halted and the pc advanced. -/
theorem mix_C2_witness :
    step trivF32 (runVM ⟨0, 0, 1, 7, 5, 8⟩) = .err .InvalidIndex
      { runVM ⟨0, 0, 1, 7, 5, 8⟩ with
         pc := (runVM ⟨0, 0, 1, 7, 5, 8⟩).pc + 1, halted := true } :=
  (mix_C2_amended trivF32 (runVM ⟨0, 0, 1, 7, 5, 8⟩) ⟨1, 5, 7, .LdA⟩ rfl
    (by decide) rfl (by decide)).1 (Or.inl (by decide))

end MixVM

namespace MixVM

/-- Counterexample for C1: LDA with effective address 4000 (in u16
range but past the end of memory) panics on the out-of-bounds memory
access instead of returning the InvalidAddress error. -/
theorem mix_C1_counterexample :
    step trivF32 (runVM ⟨0, 15, 160, 0, 5, 8⟩) = .panic ∧
    ∀ e vm', ¬ step trivF32 (runVM ⟨0, 15, 160, 0, 5, 8⟩) = .err e vm' := by
  constructor
  · rfl
  · intro e vm' h
    rw [show step trivF32 (runVM ⟨0, 15, 160, 0, 5, 8⟩) = .panic from rfl] at h
    exact HRes.noConfusion h

/-- C1 as amended: for the memory-touching instructions (loads,
stores, integer arithmetic, compares, bitwise AND/OR/XOR, IN/OUT) with
a valid index part, an effective address that is negative or exceeds
u16 surfaces InvalidAddress and halts the machine with the pc
advanced; an effective address that fits u16 but lies at or past
Mem::SIZE = 4000 surfaces InvalidAddress only for IN/OUT (which
range-check it), while every other memory-touching instruction panics
on the out-of-bounds memory access. -/
theorem mix_C1_amended (fm : F32Model) (vm : VM) (instr : Instruction)
    (h1 : vm.halted = false) (h2 : vm.pc < memSize)
    (h3 : decode (vm.mem vm.pc) = some instr)
    (hidx : instr.index ≤ 6)
    (hop : instr.opcode ∈ memOps ∨
      (instr.opcode = .Special ∧
        (instr.field = 10 ∨ instr.field = 11 ∨ instr.field = 12)) ∨
      (instr.opcode = .In ∨ instr.opcode = .Out)) :
    (((vm.r_in instr.index).to_i64.1 + instr.addr < 0 ∨
        65535 < (vm.r_in instr.index).to_i64.1 + instr.addr) →
      step fm vm = .err .InvalidAddress
        { vm with pc := vm.pc + 1, halted := true })
    ∧ (∀ M : Nat,
        helper_get_eff_addr vm instr.addr instr.index = .ok M →
        memSize ≤ M →
        ((instr.opcode = .In ∨ instr.opcode = .Out) →
          step fm vm = .err .InvalidAddress
            { vm with pc := vm.pc + 1, halted := true })
        ∧ (¬(instr.opcode = .In ∨ instr.opcode = .Out) →
          step fm vm = .panic)) := by
  constructor
  · intro hcond
    have herr : helper_get_eff_addr vm instr.addr instr.index =
        .error .InvalidAddress := helper_eff_addr_invalid_addr vm hidx hcond
    refine step_err_of_dispatch { vm with pc := vm.pc + 1 } h1 h2 h3 ?_
    rcases hop with hmem | ⟨hsp, hf⟩ | hio
    · simp only [memOps, List.mem_cons, List.not_mem_nil, or_false] at hmem
      rcases hmem with h | h | h | h | h | h | h | h | h | h | h | h | h | h | h | h | h | h | h | h | h | h | h | h | h | h | h | h | h | h | h | h | h | h | h | h | h | h
      · simp only [dispatch, h]; exact add_sub_helperErr herr
      · simp only [dispatch, h]; exact add_sub_helperErr herr
      · simp only [dispatch, h]; exact mul_helperErr herr
      · simp only [dispatch, h]; exact div_helperErr herr
      · simp only [dispatch, h]; exact load_6b_helperErr herr
      · simp only [dispatch, h]; exact load_3b_helperErr herr
      · simp only [dispatch, h]; exact load_3b_helperErr herr
      · simp only [dispatch, h]; exact load_3b_helperErr herr
      · simp only [dispatch, h]; exact load_3b_helperErr herr
      · simp only [dispatch, h]; exact load_3b_helperErr herr
      · simp only [dispatch, h]; exact load_3b_helperErr herr
      · simp only [dispatch, h]; exact load_6b_helperErr herr
      · simp only [dispatch, h]; exact load_neg_6b_helperErr herr
      · simp only [dispatch, h]; exact load_neg_3b_helperErr herr
      · simp only [dispatch, h]; exact load_neg_3b_helperErr herr
      · simp only [dispatch, h]; exact load_neg_3b_helperErr herr
      · simp only [dispatch, h]; exact load_neg_3b_helperErr herr
      · simp only [dispatch, h]; exact load_neg_3b_helperErr herr
      · simp only [dispatch, h]; exact load_neg_3b_helperErr herr
      · simp only [dispatch, h]; exact load_neg_6b_helperErr herr
      · simp only [dispatch, h]; exact store_6b_helperErr herr
      · simp only [dispatch, h]; exact store_3b_helperErr herr
      · simp only [dispatch, h]; exact store_3b_helperErr herr
      · simp only [dispatch, h]; exact store_3b_helperErr herr
      · simp only [dispatch, h]; exact store_3b_helperErr herr
      · simp only [dispatch, h]; exact store_3b_helperErr herr
      · simp only [dispatch, h]; exact store_3b_helperErr herr
      · simp only [dispatch, h]; exact store_6b_helperErr herr
      · simp only [dispatch, h]; exact store_j_helperErr herr
      · simp only [dispatch, h]; exact store_zero_helperErr herr
      · simp only [dispatch, h]; exact cmp_6b_helperErr herr
      · simp only [dispatch, h]; exact cmp_3b_helperErr herr
      · simp only [dispatch, h]; exact cmp_3b_helperErr herr
      · simp only [dispatch, h]; exact cmp_3b_helperErr herr
      · simp only [dispatch, h]; exact cmp_3b_helperErr herr
      · simp only [dispatch, h]; exact cmp_3b_helperErr herr
      · simp only [dispatch, h]; exact cmp_3b_helperErr herr
      · simp only [dispatch, h]; exact cmp_6b_helperErr herr
    · simp only [dispatch, hsp]
      exact special_bitwise_helperErr hf herr
    · rcases hio with h | h
      · simp only [dispatch, h]; exact in_out_helperErr herr
      · simp only [dispatch, h]; exact in_out_helperErr herr
  · intro M heffM hbig
    constructor
    · intro hio
      refine step_err_of_dispatch { vm with pc := vm.pc + 1 } h1 h2 h3 ?_
      rcases hio with h | h
      · simp only [dispatch, h]; exact in_out_bigAddr heffM hbig
      · simp only [dispatch, h]; exact in_out_bigAddr heffM hbig
    · intro hnio
      refine step_panic_of_dispatch h1 h2 h3 ?_
      rcases hop with hmem | ⟨hsp, hf⟩ | hio
      · simp only [memOps, List.mem_cons, List.not_mem_nil, or_false] at hmem
        rcases hmem with h | h | h | h | h | h | h | h | h | h | h | h | h | h | h | h | h | h | h | h | h | h | h | h | h | h | h | h | h | h | h | h | h | h | h | h | h | h
        · simp only [dispatch, h]; exact add_sub_bigAddr heffM hbig
        · simp only [dispatch, h]; exact add_sub_bigAddr heffM hbig
        · simp only [dispatch, h]; exact mul_bigAddr heffM hbig
        · simp only [dispatch, h]; exact div_bigAddr heffM hbig
        · simp only [dispatch, h]; exact load_6b_bigAddr heffM hbig
        · simp only [dispatch, h]; exact load_3b_bigAddr heffM hbig
        · simp only [dispatch, h]; exact load_3b_bigAddr heffM hbig
        · simp only [dispatch, h]; exact load_3b_bigAddr heffM hbig
        · simp only [dispatch, h]; exact load_3b_bigAddr heffM hbig
        · simp only [dispatch, h]; exact load_3b_bigAddr heffM hbig
        · simp only [dispatch, h]; exact load_3b_bigAddr heffM hbig
        · simp only [dispatch, h]; exact load_6b_bigAddr heffM hbig
        · simp only [dispatch, h]; exact load_neg_6b_bigAddr heffM hbig
        · simp only [dispatch, h]; exact load_neg_3b_bigAddr heffM hbig
        · simp only [dispatch, h]; exact load_neg_3b_bigAddr heffM hbig
        · simp only [dispatch, h]; exact load_neg_3b_bigAddr heffM hbig
        · simp only [dispatch, h]; exact load_neg_3b_bigAddr heffM hbig
        · simp only [dispatch, h]; exact load_neg_3b_bigAddr heffM hbig
        · simp only [dispatch, h]; exact load_neg_3b_bigAddr heffM hbig
        · simp only [dispatch, h]; exact load_neg_6b_bigAddr heffM hbig
        · simp only [dispatch, h]; exact store_6b_bigAddr heffM hbig
        · simp only [dispatch, h]; exact store_3b_bigAddr heffM hbig
        · simp only [dispatch, h]; exact store_3b_bigAddr heffM hbig
        · simp only [dispatch, h]; exact store_3b_bigAddr heffM hbig
        · simp only [dispatch, h]; exact store_3b_bigAddr heffM hbig
        · simp only [dispatch, h]; exact store_3b_bigAddr heffM hbig
        · simp only [dispatch, h]; exact store_3b_bigAddr heffM hbig
        · simp only [dispatch, h]; exact store_6b_bigAddr heffM hbig
        · simp only [dispatch, h]; exact store_j_bigAddr heffM hbig
        · simp only [dispatch, h]; exact store_zero_bigAddr heffM hbig
        · simp only [dispatch, h]; exact cmp_6b_bigAddr heffM hbig
        · simp only [dispatch, h]; exact cmp_3b_bigAddr heffM hbig
        · simp only [dispatch, h]; exact cmp_3b_bigAddr heffM hbig
        · simp only [dispatch, h]; exact cmp_3b_bigAddr heffM hbig
        · simp only [dispatch, h]; exact cmp_3b_bigAddr heffM hbig
        · simp only [dispatch, h]; exact cmp_3b_bigAddr heffM hbig
        · simp only [dispatch, h]; exact cmp_3b_bigAddr heffM hbig
        · simp only [dispatch, h]; exact cmp_6b_bigAddr heffM hbig
      · simp only [dispatch, hsp]
        exact special_bitwise_bigAddr hf heffM hbig
      · exact absurd hio hnio

/-- Witness for the amended C1: LDA with effective address -1 surfaces
InvalidAddress with the machine halted and the pc advanced. -/
theorem mix_C1_witness :
    step trivF32 (runVM ⟨1, 0, 1, 0, 5, 8⟩) = .err .InvalidAddress
      { runVM ⟨1, 0, 1, 0, 5, 8⟩ with
         pc := (runVM ⟨1, 0, 1, 0, 5, 8⟩).pc + 1, halted := true } :=
  (mix_C1_amended trivF32 (runVM ⟨1, 0, 1, 0, 5, 8⟩) ⟨-1, 5, 0, .LdA⟩ rfl
    (by decide) (by decide) (by decide) (Or.inl (by decide))).1
    (Or.inl (by decide))

end MixVM
